import Mathlib

/-!
# MME Buddy sound device instances (`lib/drivers/sound/mmebuddy/instances.c`)

A shallow embedding of the instance lifecycle code of the ReactOS "MME Buddy"
library.  Pointers are natural numbers with `0` standing for `NULL`.  The memory
holding `SOUND_DEVICE` and `SOUND_DEVICE_INSTANCE` objects is a pair of partial
maps from addresses to records; reading or writing through `NULL` or through an
address that holds no object is an access violation.  A failed `ASSERT` aborts
the run.  Loops carry a fuel argument and abort with `OutOfFuel` when it runs out.

The external routines (`AllocateMemoryFor`, `InitWaveStreamData`, and the
per-device `Constructor` and `Destructor` entries of the function table) only
produce a value: they never touch the `Next`, `Device` or `FirstInstance` fields,
which belong to this file alone.  Every call to one of them is appended to the
`Trace` of the state, so that the order and number of calls can be stated; the
call of the wave initializer is recorded with the instance as the callee finds it.
-/

namespace MMEBuddy

/-! ## Result codes and device types -/

abbrev MMRESULT := Nat

/-- Result code of `mmsystem.h`: success. -/
def MMSYSERR_NOERROR : MMRESULT := 0

/-- Result code of `mmsystem.h`: device already allocated. -/
def MMSYSERR_ALLOCATED : MMRESULT := 4

/-- Result code of `mmsystem.h`: out of memory. -/
def MMSYSERR_NOMEM : MMRESULT := 7

/-- Result code of `mmsystem.h`: invalid parameter. -/
def MMSYSERR_INVALPARAM : MMRESULT := 11

/-- Modelled from the spec: the device type tags, whose header is not part of the
sources at hand; `deviceType` is one of WaveIn, WaveOut, MidiIn, MidiOut, Mixer, Aux. -/
def WAVE_IN_DEVICE_TYPE : Nat := 1

/-- Modelled from the spec: the WaveOut device type tag. -/
def WAVE_OUT_DEVICE_TYPE : Nat := 2

/-- Modelled from the spec: the MidiIn device type tag. -/
def MIDI_IN_DEVICE_TYPE : Nat := 3

/-- Modelled from the spec: the MidiOut device type tag. -/
def MIDI_OUT_DEVICE_TYPE : Nat := 4

/-- Modelled from the spec: the Aux device type tag. -/
def AUX_DEVICE_TYPE : Nat := 5

/-- Modelled from the spec: the Mixer device type tag. -/
def MIXER_DEVICE_TYPE : Nat := 6

/-- Modelled from the spec: the macro `IS_WAVE_DEVICE_TYPE`, true of the two wave types. -/
def IS_WAVE_DEVICE_TYPE (t : Nat) : Bool :=
  t == WAVE_IN_DEVICE_TYPE || t == WAVE_OUT_DEVICE_TYPE

/-- Modelled from the spec: the macro `IS_MIDI_DEVICE_TYPE`, true of the two MIDI types. -/
def IS_MIDI_DEVICE_TYPE (t : Nat) : Bool :=
  t == MIDI_IN_DEVICE_TYPE || t == MIDI_OUT_DEVICE_TYPE

/-- Modelled from the spec: the macro `IS_MIXER_DEVICE_TYPE`. -/
def IS_MIXER_DEVICE_TYPE (t : Nat) : Bool :=
  t == MIXER_DEVICE_TYPE

/-- Modelled from the spec: the macro `IS_AUX_DEVICE_TYPE`. -/
def IS_AUX_DEVICE_TYPE (t : Nat) : Bool :=
  t == AUX_DEVICE_TYPE

/-! ## Data model -/

/-- The two fields of `SOUND_DEVICE_INSTANCE` that `instances.c` reads and writes. -/
structure SOUND_DEVICE_INSTANCE where
  Next : Nat
  Device : Nat
deriving DecidableEq

/-- The function table of a device: the two entries `instances.c` calls. -/
structure MMFUNCTION_TABLE where
  Constructor : Nat → MMRESULT
  Destructor : Nat → MMRESULT

/-- The fields of `SOUND_DEVICE` that `instances.c` reads and writes. -/
structure SOUND_DEVICE where
  DeviceType : Nat
  FirstInstance : Nat
  Functions : MMFUNCTION_TABLE

/-- One call to an external routine.  The wave initializer is handed a pointer to
the instance; its event also records the instance it finds there at the time of
the call. -/
inductive Event where
  | AllocateMemoryFor (ptr : Nat)
  | FreeMemory (ptr : Nat)
  | InitWaveStreamData (inst : Nat) (seen : Option SOUND_DEVICE_INSTANCE)
  | Constructor (inst : Nat)
  | Destructor (inst : Nat)
deriving DecidableEq

/-- The memory the code works on, and the calls made so far. -/
structure State where
  Devices : Nat → Option SOUND_DEVICE
  Instances : Nat → Option SOUND_DEVICE_INSTANCE
  Trace : List Event

/-- The external routines that are not reached through a device. -/
structure Env where
  AllocateMemoryFor : State → Nat
  InitWaveStreamData : Nat → MMRESULT

/-- Ways a run ends without returning. -/
inductive Abort where
  | AssertFailed
  | AccessViolation
  | OutOfFuel
deriving DecidableEq

/-- Modelled from the spec: the `ASSERT` macro, whose header is not part of the
sources at hand; a failed assertion is fatal and never a returned code. -/
def ASSERT (c : Bool) : Except Abort Unit :=
  if c then .ok () else .error .AssertFailed

/-! ## Memory access -/

def loadInstance (s : State) (p : Nat) : Except Abort SOUND_DEVICE_INSTANCE :=
  if p = 0 then .error .AccessViolation
  else
    match s.Instances p with
    | some i => .ok i
    | none => .error .AccessViolation

def loadDevice (s : State) (p : Nat) : Except Abort SOUND_DEVICE :=
  if p = 0 then .error .AccessViolation
  else
    match s.Devices p with
    | some d => .ok d
    | none => .error .AccessViolation

/-- The store `p->Next = v`. -/
def setNext (s : State) (p v : Nat) : Except Abort State :=
  match loadInstance s p with
  | .ok i => .ok { s with Instances := Function.update s.Instances p (some { i with Next := v }) }
  | .error e => .error e

/-- The store `p->Device = v`. -/
def setDevice (s : State) (p v : Nat) : Except Abort State :=
  match loadInstance s p with
  | .ok i => .ok { s with Instances := Function.update s.Instances p (some { i with Device := v }) }
  | .error e => .error e

/-- The store `p->FirstInstance = v`. -/
def setFirstInstance (s : State) (p v : Nat) : Except Abort State :=
  match loadDevice s p with
  | .ok d => .ok { s with Devices := Function.update s.Devices p (some { d with FirstInstance := v }) }
  | .error e => .error e

/-- Appends one call to the trace. -/
def record (s : State) (e : Event) : State :=
  { s with Trace := s.Trace ++ [e] }

/-! ## Init / New / Delete handlers -/

def InitSoundDeviceInstance (s : State) (SoundDeviceInstance : Nat) : Except Abort State :=
  match setNext s SoundDeviceInstance 0 with
  | .ok s1 => setDevice s1 SoundDeviceInstance 0
  | .error e => .error e

/-- The allocator call `AllocateMemoryFor(SOUND_DEVICE_INSTANCE)`: the address the
environment picks, holding zeroed storage, or `NULL`. -/
def AllocateMemoryFor (env : Env) (s : State) : Nat × State :=
  let ptr := env.AllocateMemoryFor s
  if ptr = 0 then (0, record s (.AllocateMemoryFor 0))
  else
    (ptr, record { s with Instances := Function.update s.Instances ptr (some ⟨0, 0⟩) }
      (.AllocateMemoryFor ptr))

def AllocateSoundDeviceInstance (env : Env) (s : State) : Except Abort (Nat × State) :=
  let r := AllocateMemoryFor env s
  if r.1 = 0 then .ok (0, r.2)
  else
    match InitSoundDeviceInstance r.2 r.1 with
    | .ok s1 => .ok (r.1, s1)
    | .error e => .error e

/-- The call `FreeMemory(p)`: the storage at `p` holds no object afterwards. -/
def FreeSoundDeviceInstance (s : State) (SoundDeviceInstance : Nat) : State :=
  record { s with Instances := Function.update s.Instances SoundDeviceInstance none }
    (.FreeMemory SoundDeviceInstance)

/-! ## List management -/

/-- The loop of `ListSoundDeviceInstance` that walks to the tail and links the
new instance behind it. -/
def ListSoundDeviceInstance_loop : Nat → State → Nat → Nat → Except Abort State
  | 0, _, _, _ => .error .OutOfFuel
  | fuel + 1, s, CurrentInstance, SoundDeviceInstance =>
    if CurrentInstance = 0 then .ok s
    else
      match loadInstance s CurrentInstance with
      | .error e => .error e
      | .ok cur =>
        if cur.Next = 0 then setNext s CurrentInstance SoundDeviceInstance
        else ListSoundDeviceInstance_loop fuel s cur.Next SoundDeviceInstance

/-- The type dispatch of `ListSoundDeviceInstance`. -/
def ListSoundDeviceInstance_dispatch (env : Env) (s : State) (DeviceType : Nat)
    (SoundDeviceInstance : Nat) : Except Abort State :=
  if IS_WAVE_DEVICE_TYPE DeviceType then
    let Result := env.InitWaveStreamData SoundDeviceInstance
    let s1 := record s
      (.InitWaveStreamData SoundDeviceInstance (s.Instances SoundDeviceInstance))
    match ASSERT (Result == MMSYSERR_NOERROR) with
    | .ok _ => .ok s1
    | .error e => .error e
  else if IS_MIDI_DEVICE_TYPE DeviceType then .ok s
  else if IS_MIXER_DEVICE_TYPE DeviceType then .ok s
  else if IS_AUX_DEVICE_TYPE DeviceType then .ok s
  else
    match ASSERT false with
    | .ok _ => .ok s
    | .error e => .error e

def ListSoundDeviceInstance (env : Env) (fuel : Nat) (s : State)
    (SoundDevice SoundDeviceInstance : Nat) : Except Abort State := do
  ASSERT (SoundDevice != 0)
  ASSERT (SoundDeviceInstance != 0)
  let inst ← loadInstance s SoundDeviceInstance
  ASSERT (inst.Device == 0)
  let s1 ← setDevice s SoundDeviceInstance SoundDevice
  let dev ← loadDevice s1 SoundDevice
  let s2 ← ListSoundDeviceInstance_dispatch env s1 dev.DeviceType SoundDeviceInstance
  if dev.FirstInstance = 0 then
    setFirstInstance s2 SoundDevice SoundDeviceInstance
  else
    ListSoundDeviceInstance_loop fuel s2 dev.FirstInstance SoundDeviceInstance

/-- The loop of `UnlistSoundDeviceInstance`: it returns the instance in front of
the one to remove. -/
def UnlistSoundDeviceInstance_loop : Nat → State → Nat → Nat → Except Abort Nat
  | 0, _, _, _ => .error .OutOfFuel
  | fuel + 1, s, CurrentInstance, SoundDeviceInstance =>
    match loadInstance s CurrentInstance with
    | .error e => .error e
    | .ok cur =>
      if cur.Next ≠ SoundDeviceInstance then
        match ASSERT (cur.Next != 0) with
        | .error e => .error e
        | .ok _ => UnlistSoundDeviceInstance_loop fuel s cur.Next SoundDeviceInstance
      else .ok CurrentInstance

def UnlistSoundDeviceInstance (fuel : Nat) (s : State) (SoundDeviceInstance : Nat) :
    Except Abort State := do
  ASSERT (SoundDeviceInstance != 0)
  let inst ← loadInstance s SoundDeviceInstance
  ASSERT (inst.Device != 0)
  let SoundDevice := inst.Device
  let dev ← loadDevice s SoundDevice
  if dev.FirstInstance = SoundDeviceInstance then
    setFirstInstance s SoundDevice 0
  else
    let CurrentInstance ← UnlistSoundDeviceInstance_loop fuel s dev.FirstInstance SoundDeviceInstance
    let inst1 ← loadInstance s SoundDeviceInstance
    setNext s CurrentInstance inst1.Next

/-! ## Public routines -/

/-- The routine `CreateSoundDeviceInstance`.  The second argument is the address of
the output slot; the second component of the result is what was stored through
it, `none` when nothing was stored. -/
def CreateSoundDeviceInstance (env : Env) (fuel : Nat) (s : State)
    (SoundDevice SoundDeviceInstance : Nat) : Except Abort ((MMRESULT × Option Nat) × State) :=
  if SoundDevice = 0 then .ok ((MMSYSERR_INVALPARAM, none), s)
  else if SoundDeviceInstance = 0 then .ok ((MMSYSERR_INVALPARAM, none), s)
  else do
    let (CreatedInstance, s1) ← AllocateSoundDeviceInstance env s
    if CreatedInstance = 0 then
      pure ((MMSYSERR_NOMEM, none), s1)
    else
      let s2 ← ListSoundDeviceInstance env fuel s1 SoundDevice CreatedInstance
      let dev ← loadDevice s2 SoundDevice
      let Result := dev.Functions.Constructor CreatedInstance
      let s3 := record s2 (.Constructor CreatedInstance)
      if Result ≠ MMSYSERR_NOERROR then
        let s4 ← UnlistSoundDeviceInstance fuel s3 CreatedInstance
        let s5 := FreeSoundDeviceInstance s4 CreatedInstance
        pure ((Result, some 0), s5)
      else
        pure ((Result, some CreatedInstance), s3)

/-- The routine `GetSoundDeviceFromInstance`; the second component of the result is
what was stored through the output slot. -/
def GetSoundDeviceFromInstance (s : State) (SoundDeviceInstance SoundDevice : Nat) :
    Except Abort ((MMRESULT × Option Nat) × State) := do
  ASSERT (SoundDeviceInstance != 0)
  ASSERT (SoundDevice != 0)
  if SoundDeviceInstance = 0 then pure ((MMSYSERR_INVALPARAM, none), s)
  else if SoundDevice = 0 then pure ((MMSYSERR_INVALPARAM, none), s)
  else
    let inst ← loadInstance s SoundDeviceInstance
    pure ((MMSYSERR_NOERROR, some inst.Device), s)

/-- The parameter checks and the read of `GetSoundDeviceFromInstance`, lines 202 to
210 of the source: what the routine does behind its two assertions. -/
def GetSoundDeviceFromInstance_checks (s : State) (SoundDeviceInstance SoundDevice : Nat) :
    Except Abort ((MMRESULT × Option Nat) × State) :=
  if SoundDeviceInstance = 0 then .ok ((MMSYSERR_INVALPARAM, none), s)
  else if SoundDevice = 0 then .ok ((MMSYSERR_INVALPARAM, none), s)
  else
    match loadInstance s SoundDeviceInstance with
    | .ok inst => .ok ((MMSYSERR_NOERROR, some inst.Device), s)
    | .error e => .error e

def DestroySoundDeviceInstance (fuel : Nat) (s : State) (SoundDeviceInstance : Nat) :
    Except Abort (MMRESULT × State) :=
  if SoundDeviceInstance = 0 then .ok (MMSYSERR_INVALPARAM, s)
  else do
    let inst ← loadInstance s SoundDeviceInstance
    let SoundDevice := inst.Device
    let dev ← loadDevice s SoundDevice
    let _ := dev.Functions.Destructor SoundDeviceInstance
    let s1 := record s (.Destructor SoundDeviceInstance)
    let s2 ← UnlistSoundDeviceInstance fuel s1 SoundDeviceInstance
    let s3 := FreeSoundDeviceInstance s2 SoundDeviceInstance
    pure (MMSYSERR_NOERROR, s3)

/-- The loop of `DestroyAllInstancesOfSoundDevice`; the first argument bounds the
number of rounds, the second is handed to each destroy. -/
def DestroyAllInstancesOfSoundDevice_loop : Nat → Nat → State → Nat → Except Abort State
  | 0, _, _, _ => .error .OutOfFuel
  | rounds + 1, fuel, s, SoundDevice =>
    match loadDevice s SoundDevice with
    | .error e => .error e
    | .ok dev =>
      if dev.FirstInstance = 0 then .ok s
      else
        match DestroySoundDeviceInstance fuel s dev.FirstInstance with
        | .error e => .error e
        | .ok r => DestroyAllInstancesOfSoundDevice_loop rounds fuel r.2 SoundDevice

def DestroyAllInstancesOfSoundDevice (fuel : Nat) (s : State) (SoundDevice : Nat) :
    Except Abort (MMRESULT × State) :=
  if SoundDevice = 0 then .ok (MMSYSERR_INVALPARAM, s)
  else
    match DestroyAllInstancesOfSoundDevice_loop fuel fuel s SoundDevice with
    | .error e => .error e
    | .ok s1 => .ok (MMSYSERR_NOERROR, s1)

/-! ## The instance list of a device -/

/-- The chain of `Next` links starting at `p` visits exactly the addresses of `L`
and then reaches `NULL`. -/
def IsList (h : Nat → Option SOUND_DEVICE_INSTANCE) : Nat → List Nat → Prop
  | p, [] => p = 0
  | p, x :: xs =>
    p = x ∧ x ≠ 0 ∧
      match h x with
      | some i => IsList h i.Next xs
      | none => False

instance IsList.decide (h : Nat → Option SOUND_DEVICE_INSTANCE) :
    (p : Nat) → (L : List Nat) → Decidable (IsList h p L)
  | p, [] => inferInstanceAs (Decidable (p = 0))
  | p, x :: xs =>
    match hx : h x with
    | some i =>
      have := IsList.decide h i.Next xs
      decidable_of_iff (p = x ∧ x ≠ 0 ∧ IsList h i.Next xs) (by simp [IsList, hx])
    | none => isFalse (by simp [IsList, hx])

/-- The traversal of device `D` from `FirstInstance` along `Next` is exactly `L`. -/
def InstanceList (s : State) (D : Nat) (L : List Nat) : Prop :=
  match s.Devices D with
  | some d => IsList s.Instances d.FirstInstance L
  | none => False

instance InstanceList.decide (s : State) (D : Nat) (L : List Nat) :
    Decidable (InstanceList s D L) := by
  unfold InstanceList
  cases s.Devices D <;> infer_instance

/-- The `Device` field of the instance at `x` is `D`. -/
def OwnedBy (s : State) (x D : Nat) : Prop :=
  match s.Instances x with
  | some i => i.Device = D
  | none => False

instance OwnedBy.decide (s : State) (x D : Nat) : Decidable (OwnedBy s x D) := by
  unfold OwnedBy
  cases s.Instances x <;> infer_instance

/-- The instance at `y` appears in the traversal of some device. -/
def Listed (s : State) (y : Nat) : Prop :=
  ∃ E L, InstanceList s E L ∧ y ∈ L

/-- The `Device` field of the instance at `y` is not `NULL`. -/
def HasOwner (s : State) (y : Nat) : Prop :=
  match s.Instances y with
  | some i => i.Device ≠ 0
  | none => False

instance HasOwner.decide (s : State) (y : Nat) : Decidable (HasOwner s y) := by
  unfold HasOwner
  cases s.Instances y <;> infer_instance

/-- The data-model predicate at the instance `y`: its `Device` field is not `NULL`
if and only if it appears in the traversal of some device. -/
def OwnershipMatchesListing (s : State) (y : Nat) : Prop :=
  HasOwner s y ↔ Listed s y

/-- The data-model predicate on the whole memory: every device has a traversal
that reaches `NULL` without visiting an instance twice, and no instance is in the
traversals of two devices. -/
def NoDuplicates (s : State) : Prop :=
  (∀ D d, s.Devices D = some d → ∃ L, IsList s.Instances d.FirstInstance L ∧ L.Nodup) ∧
  (∀ D E L1 L2 x, InstanceList s D L1 → InstanceList s E L2 → x ∈ L1 → x ∈ L2 → D = E)

/-- The device type is one the dispatch of `ListSoundDeviceInstance` knows. -/
def KnownDeviceType (t : Nat) : Prop :=
  IS_WAVE_DEVICE_TYPE t = true ∨ IS_MIDI_DEVICE_TYPE t = true ∨
    IS_MIXER_DEVICE_TYPE t = true ∨ IS_AUX_DEVICE_TYPE t = true

instance KnownDeviceType.decide (t : Nat) : Decidable (KnownDeviceType t) := by
  unfold KnownDeviceType
  infer_instance

/-- The traversal that `UnlistSoundDeviceInstance` leaves behind when it removes
`x` from a device whose traversal was `L`: the head case clears `FirstInstance`,
the other case links the predecessor of `x` to its successor. -/
def detached (L : List Nat) (x : Nat) : List Nat :=
  if L.head? = some x then [] else L.erase x

/-- The state `s` with the destructor entry of device `D` replaced by `g`. -/
def withDestructor (s : State) (D : Nat) (g : Nat → MMRESULT) : State :=
  { s with Devices := fun p =>
      if p = D then
        (s.Devices p).map fun d => { d with Functions := { d.Functions with Destructor := g } }
      else s.Devices p }

/-! ## Example memories -/

/-- A function table whose constructor always returns `c` and whose destructor
always returns `r`. -/
def constTable (c r : MMRESULT) : MMFUNCTION_TABLE :=
  ⟨fun _ => c, fun _ => r⟩

/-- The instances of `L`, linked in this order and owned by `D`. -/
def linked (D : Nat) : List Nat → Nat → Option SOUND_DEVICE_INSTANCE
  | [], _ => none
  | x :: xs, p => if p = x then some ⟨xs.headD 0, D⟩ else linked D xs p

/-- A memory with one device at `D`, of type `ty`, whose list is `L`. -/
def deviceState (ty : Nat) (t : MMFUNCTION_TABLE) (D : Nat) (L : List Nat) : State :=
  { Devices := fun p => if p = D then some ⟨ty, L.headD 0, t⟩ else none,
    Instances := linked D L,
    Trace := [] }

/-- An environment whose allocator returns `x` and whose wave initializer
returns `w`. -/
def constEnv (x : Nat) (w : MMRESULT) : Env :=
  ⟨fun _ => x, fun _ => w⟩

/-- An environment whose allocator hands out a new address on every call, one
more than the number of calls recorded so far, and whose wave initializer
succeeds. -/
def countingEnv : Env :=
  ⟨fun s => s.Trace.length + 1, fun _ => MMSYSERR_NOERROR⟩

/-- A memory with one device at `D` whose list is `L`, and one more instance at
`x` that names `D` as its device without being linked into the list. -/
def strayState (ty : Nat) (t : MMFUNCTION_TABLE) (D : Nat) (L : List Nat) (x : Nat) : State :=
  { Devices := fun p => if p = D then some ⟨ty, L.headD 0, t⟩ else none,
    Instances := fun p => if p = x then some ⟨0, D⟩ else linked D L p,
    Trace := [] }

/-! ## Facts about memory access -/

theorem loadInstance_ok {s : State} {p : Nat} {i : SOUND_DEVICE_INSTANCE}
    (hp : p ≠ 0) (h : s.Instances p = some i) : loadInstance s p = .ok i := by
  simp [loadInstance, hp, h]

theorem loadDevice_ok {s : State} {p : Nat} {d : SOUND_DEVICE}
    (hp : p ≠ 0) (h : s.Devices p = some d) : loadDevice s p = .ok d := by
  simp [loadDevice, hp, h]

theorem setNext_ok {s : State} {p : Nat} {i : SOUND_DEVICE_INSTANCE} (v : Nat)
    (hp : p ≠ 0) (h : s.Instances p = some i) :
    setNext s p v =
      .ok { s with Instances := Function.update s.Instances p (some { i with Next := v }) } := by
  simp [setNext, loadInstance_ok hp h]

theorem setDevice_ok {s : State} {p : Nat} {i : SOUND_DEVICE_INSTANCE} (v : Nat)
    (hp : p ≠ 0) (h : s.Instances p = some i) :
    setDevice s p v =
      .ok { s with Instances := Function.update s.Instances p (some { i with Device := v }) } := by
  simp [setDevice, loadInstance_ok hp h]

theorem setFirstInstance_ok {s : State} {p : Nat} {d : SOUND_DEVICE} (v : Nat)
    (hp : p ≠ 0) (h : s.Devices p = some d) :
    setFirstInstance s p v =
      .ok { s with Devices := Function.update s.Devices p (some { d with FirstInstance := v }) } := by
  simp [setFirstInstance, loadDevice_ok hp h]

/-! ## Facts about list traversal -/

theorem IsList_nil {h : Nat → Option SOUND_DEVICE_INSTANCE} {p : Nat} :
    IsList h p [] ↔ p = 0 := by
  simp [IsList]

theorem IsList_cons {h : Nat → Option SOUND_DEVICE_INSTANCE} {p x : Nat} {xs : List Nat} :
    IsList h p (x :: xs) ↔ p = x ∧ x ≠ 0 ∧ ∃ i, h x = some i ∧ IsList h i.Next xs := by
  cases hx : h x <;> simp [IsList, hx]

/-- Every address on the chain is non-null. -/
theorem IsList.ne_null {h : Nat → Option SOUND_DEVICE_INSTANCE} :
    ∀ {L : List Nat} {p : Nat}, IsList h p L → ∀ x ∈ L, x ≠ 0
  | [], _, _, x, hx => by simp at hx
  | a :: L, p, hl, x, hx => by
    obtain ⟨_, ha, i, _, hrest⟩ := IsList_cons.mp hl
    rcases List.mem_cons.mp hx with rfl | hx
    · exact ha
    · exact hrest.ne_null x hx

/-- Every address on the chain holds an instance. -/
theorem IsList.allocated {h : Nat → Option SOUND_DEVICE_INSTANCE} :
    ∀ {L : List Nat} {p : Nat}, IsList h p L → ∀ x ∈ L, ∃ i, h x = some i
  | [], _, _, x, hx => by simp at hx
  | a :: L, p, hl, x, hx => by
    obtain ⟨_, _, i, hi, hrest⟩ := IsList_cons.mp hl
    rcases List.mem_cons.mp hx with rfl | hx
    · exact ⟨i, hi⟩
    · exact hrest.allocated x hx

/-- The chain from a given address is unique. -/
theorem IsList.unique {h : Nat → Option SOUND_DEVICE_INSTANCE} :
    ∀ {L1 L2 : List Nat} {p : Nat}, IsList h p L1 → IsList h p L2 → L1 = L2
  | [], [], _, _, _ => rfl
  | [], b :: L2, p, h1, h2 => by
    obtain ⟨hp, hb, _⟩ := IsList_cons.mp h2
    exact absurd (hp ▸ IsList_nil.mp h1) hb
  | a :: L1, [], p, h1, h2 => by
    obtain ⟨hp, ha, _⟩ := IsList_cons.mp h1
    exact absurd (hp ▸ IsList_nil.mp h2) ha
  | a :: L1, b :: L2, p, h1, h2 => by
    obtain ⟨hpa, _, i, hi, hr1⟩ := IsList_cons.mp h1
    obtain ⟨hpb, _, j, hj, hr2⟩ := IsList_cons.mp h2
    have hab : a = b := hpa.symm.trans hpb
    subst hab
    have hij : i = j := Option.some.inj (hi.symm.trans hj)
    subst hij
    rw [hr1.unique hr2]

/-- The chain restarted at one of its members is a strictly shorter chain. -/
theorem IsList.from_member {h : Nat → Option SOUND_DEVICE_INSTANCE} :
    ∀ {L : List Nat} {p : Nat}, IsList h p L → ∀ x ∈ L,
      ∃ L2, IsList h x (x :: L2) ∧ L2.length < L.length
  | [], _, _, x, hx => by simp at hx
  | a :: L, p, hl, x, hx => by
    obtain ⟨hp, ha, i, hi, hrest⟩ := IsList_cons.mp hl
    rcases List.mem_cons.mp hx with rfl | hx
    · exact ⟨L, IsList_cons.mpr ⟨rfl, ha, i, hi, hrest⟩, by simp⟩
    · obtain ⟨L2, h2, hlen⟩ := hrest.from_member x hx
      exact ⟨L2, h2, by simp; omega⟩

/-- A chain that reaches `NULL` visits no address twice. -/
theorem IsList.nodup {h : Nat → Option SOUND_DEVICE_INSTANCE} :
    ∀ {L : List Nat} {p : Nat}, IsList h p L → L.Nodup
  | [], _, _ => List.nodup_nil
  | a :: L, p, hl => by
    obtain ⟨hp, ha, i, hi, hrest⟩ := IsList_cons.mp hl
    refine List.nodup_cons.mpr ⟨?_, hrest.nodup⟩
    intro hmem
    obtain ⟨L2, h2, hlen⟩ := hrest.from_member a hmem
    have h1 : IsList h a (a :: L) := IsList_cons.mpr ⟨rfl, ha, i, hi, hrest⟩
    have := h1.unique h2
    simp at this
    subst this
    omega

/-- Writing to an address off the chain leaves the chain as it is. -/
theorem IsList.update_of_not_mem {h : Nat → Option SOUND_DEVICE_INSTANCE} {q : Nat}
    (v : Option SOUND_DEVICE_INSTANCE) :
    ∀ {L : List Nat} {p : Nat}, IsList h p L → q ∉ L → IsList (Function.update h q v) p L
  | [], _, hl, _ => by simpa [IsList] using hl
  | a :: L, p, hl, hq => by
    obtain ⟨hp, ha, i, hi, hrest⟩ := IsList_cons.mp hl
    have hqa : a ≠ q := fun e => hq (by simp [e])
    have hqL : q ∉ L := fun e => hq (by simp [e])
    exact IsList_cons.mpr ⟨hp, ha, i, by simp [Function.update, hqa, hi],
      hrest.update_of_not_mem v hqL⟩

/-- Writing the `Device` field of any instance leaves every chain as it is. -/
theorem IsList.update_device {h : Nat → Option SOUND_DEVICE_INSTANCE} {q : Nat}
    {iq : SOUND_DEVICE_INSTANCE} (hq : h q = some iq) (v : Nat) :
    ∀ {L : List Nat} {p : Nat}, IsList h p L →
      IsList (Function.update h q (some { iq with Device := v })) p L
  | [], _, hl => by simpa [IsList] using hl
  | a :: L, p, hl => by
    obtain ⟨hp, ha, i, hi, hrest⟩ := IsList_cons.mp hl
    by_cases hqa : a = q
    · subst hqa
      have : i = iq := Option.some.inj (hi.symm.trans hq)
      subst this
      exact IsList_cons.mpr ⟨hp, ha, { i with Device := v }, by simp,
        hrest.update_device hq v⟩
    · exact IsList_cons.mpr ⟨hp, ha, i, by simp [Function.update, hqa, hi],
        hrest.update_device hq v⟩

/-! ## The two list walks -/

/-- The tail walk of `ListSoundDeviceInstance` on a chain `L` that does not hold
`x`: it links `x` behind the last instance and changes nothing else. -/
theorem ListSoundDeviceInstance_loop_spec (s : State) (x : Nat) (ix : SOUND_DEVICE_INSTANCE)
    (hx0 : x ≠ 0) (hix : s.Instances x = some ix) (hnext : ix.Next = 0) :
    ∀ (L : List Nat) (cur fuel : Nat), IsList s.Instances cur L → L ≠ [] → x ∉ L →
      L.length ≤ fuel →
      ∃ t it, t ∈ L ∧ s.Instances t = some it ∧
        ListSoundDeviceInstance_loop fuel s cur x =
          .ok { s with Instances := Function.update s.Instances t (some { it with Next := x }) } ∧
        IsList (Function.update s.Instances t (some { it with Next := x })) cur (L ++ [x])
  | [], _, _, _, hne, _, _ => absurd rfl hne
  | a :: L, cur, 0, _, _, _, hfuel => by simp at hfuel
  | a :: L, cur, fuel + 1, hl, _, hxL, hfuel => by
    obtain ⟨hp, ha, i, hi, hrest⟩ := IsList_cons.mp hl
    subst hp
    have hxa : x ≠ cur := fun e => hxL (by simp [e])
    have hxL2 : x ∉ L := fun e => hxL (by simp [e])
    have hnd := hl.nodup
    have hcurL : cur ∉ L := (List.nodup_cons.mp hnd).1
    by_cases hn : i.Next = 0
    · -- `cur` is the tail
      have hLnil : L = [] := by
        cases L with
        | nil => rfl
        | cons b L =>
          obtain ⟨hb, hb0, _⟩ := IsList_cons.mp hrest
          exact absurd (hb ▸ hn) hb0
      subst hLnil
      refine ⟨cur, i, by simp, hi, ?_, ?_⟩
      · simp [ListSoundDeviceInstance_loop, ha, loadInstance_ok ha hi, hn, setNext_ok x ha hi]
      · refine IsList_cons.mpr ⟨rfl, ha, { i with Next := x }, by simp, ?_⟩
        refine IsList_cons.mpr ⟨rfl, hx0, ix, by simp [Function.update, hxa, hix], ?_⟩
        simp [IsList, hnext]
    · have hLne : L ≠ [] := by
        rintro rfl
        exact hn (IsList_nil.mp hrest)
      have hlen : L.length ≤ fuel := by simp at hfuel; omega
      obtain ⟨t, it, htL, hit, hrun, hlist⟩ :=
        ListSoundDeviceInstance_loop_spec s x ix hx0 hix hnext L i.Next fuel hrest hLne hxL2 hlen
      have htcur : cur ≠ t := fun e => hcurL (e ▸ htL)
      refine ⟨t, it, by simp [htL], hit, ?_, ?_⟩
      · simp [ListSoundDeviceInstance_loop, ha, loadInstance_ok ha hi, hn, hrun]
      · exact IsList_cons.mpr ⟨rfl, ha, i, by simp [Function.update, htcur, hi], hlist⟩

/-- The predecessor walk of `UnlistSoundDeviceInstance` on a chain `L` that holds
`x` behind its head: it stops at the instance in front of `x`, and linking that
instance to the successor of `x` leaves the chain `L` without `x`. -/
theorem UnlistSoundDeviceInstance_loop_spec (s : State) (x : Nat) :
    ∀ (L : List Nat) (cur fuel : Nat), IsList s.Instances cur L → cur ≠ x → x ∈ L →
      L.length ≤ fuel + 1 →
      ∃ pred ipred ix, pred ∈ L ∧ pred ≠ x ∧ pred ≠ 0 ∧ s.Instances pred = some ipred ∧
        s.Instances x = some ix ∧
        UnlistSoundDeviceInstance_loop fuel s cur x = .ok pred ∧
        IsList (Function.update s.Instances pred (some { ipred with Next := ix.Next })) cur
          (L.erase x)
  | [], _, _, _, _, hx, _ => by simp at hx
  | [a], cur, _, hl, hne, hx, _ => by
    obtain ⟨hp, _⟩ := IsList_cons.mp hl
    simp at hx
    exact absurd (hp.trans hx.symm) hne
  | a :: b :: L, cur, 0, _, _, _, hfuel => by simp at hfuel
  | a :: b :: L, cur, fuel + 1, hl, hne, hx, hfuel => by
    obtain ⟨hp, ha, i, hi, hrest⟩ := IsList_cons.mp hl
    subst hp
    obtain ⟨hb, hb0, j, hj, hrest2⟩ := IsList_cons.mp hrest
    have hnd := hl.nodup
    have hcur : cur ∉ b :: L := (List.nodup_cons.mp hnd).1
    have hxL : x ∈ b :: L := by
      rcases List.mem_cons.mp hx with e | e
      · exact absurd e.symm hne
      · exact e
    by_cases hn : i.Next = x
    · -- `cur` is the predecessor
      have hbx : b = x := hb.symm.trans hn
      subst hbx
      refine ⟨cur, i, j, by simp, hne, ha, hi, hj, ?_, ?_⟩
      · simp [UnlistSoundDeviceInstance_loop, loadInstance_ok ha hi, hn]
      · have hcurL : cur ∉ L := fun e => hcur (by simp [e])
        have he : (cur :: b :: L).erase b = cur :: L := by
          simp [List.erase_cons, hne]
        rw [he]
        exact IsList_cons.mpr ⟨rfl, ha, { i with Next := j.Next }, by simp,
          hrest2.update_of_not_mem _ hcurL⟩
    · have hbx : b ≠ x := fun e => hn (hb ▸ e)
      have hi0 : i.Next ≠ 0 := hb ▸ hb0
      have hlen : (b :: L).length ≤ fuel + 1 := by simp at hfuel ⊢; omega
      obtain ⟨pred, ipred, ix, hpm, hpx, hp0, hip, hixx, hrun, hlist⟩ :=
        UnlistSoundDeviceInstance_loop_spec s x (b :: L) i.Next fuel hrest (hb ▸ hbx) hxL hlen
      have hpc : cur ≠ pred := fun e => hcur (e ▸ hpm)
      refine ⟨pred, ipred, ix, by simp [List.mem_cons.mp hpm], hpx, hp0, hip, hixx, ?_, ?_⟩
      · simp [UnlistSoundDeviceInstance_loop, loadInstance_ok ha hi, hn, ASSERT, hi0, hrun]
      · have he : (cur :: b :: L).erase x = cur :: (b :: L).erase x := by
          rw [List.erase_cons]
          simp [hne]
        rw [he]
        exact IsList_cons.mpr ⟨rfl, ha, i, by simp [Function.update, hpc, hi], hlist⟩

/-! ## The private routines -/

theorem AllocateSoundDeviceInstance_ok (env : Env) (s : State) (x : Nat)
    (hx : env.AllocateMemoryFor s = x) (hx0 : x ≠ 0) :
    AllocateSoundDeviceInstance env s =
      .ok (x, { s with Instances := Function.update s.Instances x (some ⟨0, 0⟩),
                       Trace := s.Trace ++ [.AllocateMemoryFor x] }) := by
  subst hx
  have h1 : AllocateMemoryFor env s =
      (env.AllocateMemoryFor s,
        record { s with Instances :=
          Function.update s.Instances (env.AllocateMemoryFor s) (some ⟨0, 0⟩) }
          (.AllocateMemoryFor (env.AllocateMemoryFor s))) := by
    simp [AllocateMemoryFor, hx0]
  unfold AllocateSoundDeviceInstance
  rw [h1]
  simp [hx0, InitSoundDeviceInstance, setNext, setDevice, loadInstance, record]

theorem AllocateSoundDeviceInstance_null (env : Env) (s : State)
    (hx : env.AllocateMemoryFor s = 0) :
    AllocateSoundDeviceInstance env s = .ok (0, record s (.AllocateMemoryFor 0)) := by
  simp [AllocateSoundDeviceInstance, AllocateMemoryFor, hx]

theorem ListSoundDeviceInstance_dispatch_ok (env : Env) (s : State) (t x : Nat)
    (hk : KnownDeviceType t)
    (hw : IS_WAVE_DEVICE_TYPE t = true → env.InitWaveStreamData x = MMSYSERR_NOERROR) :
    ListSoundDeviceInstance_dispatch env s t x =
      .ok { s with Trace := s.Trace ++
        (if IS_WAVE_DEVICE_TYPE t = true then
          [.InitWaveStreamData x (s.Instances x)] else []) } := by
  unfold ListSoundDeviceInstance_dispatch
  by_cases h1 : IS_WAVE_DEVICE_TYPE t = true
  · simp [h1, hw h1, ASSERT, record]
  · by_cases h2 : IS_MIDI_DEVICE_TYPE t = true
    · simp [h1, h2]
    · by_cases h3 : IS_MIXER_DEVICE_TYPE t = true
      · simp [h1, h2, h3]
      · have h4 : IS_AUX_DEVICE_TYPE t = true := by
          rcases hk with h | h | h | h
          · exact absurd h h1
          · exact absurd h h2
          · exact absurd h h3
          · exact h
        simp [h1, h2, h3, h4]

/-- Attach: on a device whose traversal is `L`, a fresh zeroed instance `x` is put
behind `L`; only the `Device` field of `x`, one `Next` link and possibly
`FirstInstance` change. -/
theorem ListSoundDeviceInstance_spec (env : Env) (fuel : Nat) (s : State) (D x : Nat)
    (d : SOUND_DEVICE) (L : List Nat)
    (hD : D ≠ 0) (hx0 : x ≠ 0) (hix : s.Instances x = some ⟨0, 0⟩)
    (hd : s.Devices D = some d) (hk : KnownDeviceType d.DeviceType)
    (hw : IS_WAVE_DEVICE_TYPE d.DeviceType = true →
      env.InitWaveStreamData x = MMSYSERR_NOERROR)
    (hL : IsList s.Instances d.FirstInstance L) (hxL : x ∉ L) (hfuel : L.length ≤ fuel) :
    ∃ s1, ListSoundDeviceInstance env fuel s D x = .ok s1 ∧
      InstanceList s1 D (L ++ [x]) ∧
      s1.Instances x = some ⟨0, D⟩ ∧
      (∃ d1, s1.Devices D = some d1 ∧ d1.Functions = d.Functions ∧
        d1.DeviceType = d.DeviceType) ∧
      (∀ E, E ≠ D → s1.Devices E = s.Devices E) ∧
      (∀ y, y ≠ x → (s1.Instances y).map (·.Device) = (s.Instances y).map (·.Device)) ∧
      s1.Trace = s.Trace ++
        (if IS_WAVE_DEVICE_TYPE d.DeviceType = true then
          [.InitWaveStreamData x (some ⟨0, D⟩)] else []) := by
  have hL1 : IsList (Function.update s.Instances x (some ⟨0, D⟩)) d.FirstInstance L :=
    hL.update_of_not_mem _ hxL
  have hrun : ListSoundDeviceInstance env fuel s D x =
      if d.FirstInstance = 0 then
        setFirstInstance
          { Devices := s.Devices, Instances := Function.update s.Instances x (some ⟨0, D⟩),
            Trace := s.Trace ++
              (if IS_WAVE_DEVICE_TYPE d.DeviceType = true then
                [.InitWaveStreamData x (some ⟨0, D⟩)] else []) }
          D x
      else
        ListSoundDeviceInstance_loop fuel
          { Devices := s.Devices, Instances := Function.update s.Instances x (some ⟨0, D⟩),
            Trace := s.Trace ++
              (if IS_WAVE_DEVICE_TYPE d.DeviceType = true then
                [.InitWaveStreamData x (some ⟨0, D⟩)] else []) }
          d.FirstInstance x := by
    simp only [ListSoundDeviceInstance, ASSERT, bind, Except.bind, loadInstance_ok hx0 hix,
      setDevice_ok D hx0 hix]
    simp [hD, hx0, loadDevice, hd, ListSoundDeviceInstance_dispatch_ok env _ _ x hk hw]
  rw [hrun]
  by_cases hf : d.FirstInstance = 0
  · have hnil : L = [] := by
      cases L with
      | nil => rfl
      | cons b L =>
        obtain ⟨hb, hb0, _⟩ := IsList_cons.mp hL
        exact absurd (hb ▸ hf) hb0
    subst hnil
    rw [if_pos hf, setFirstInstance_ok x hD (by exact hd)]
    refine ⟨_, rfl, ?_, ?_, ?_, ?_, ?_, ?_⟩
    · simp [InstanceList, IsList, hx0]
    · simp
    · exact ⟨{ d with FirstInstance := x }, by simp, rfl, rfl⟩
    · intro E hE
      simp [Function.update, hE]
    · intro y hy
      simp [Function.update, hy]
    · rfl
  · have hne : L ≠ [] := by
      rintro rfl
      exact hf (IsList_nil.mp hL)
    rw [if_neg hf]
    obtain ⟨t, it, htL, hit, hrun2, hlist⟩ :=
      ListSoundDeviceInstance_loop_spec
        { Devices := s.Devices, Instances := Function.update s.Instances x (some ⟨0, D⟩),
          Trace := s.Trace ++
            (if IS_WAVE_DEVICE_TYPE d.DeviceType = true then
              [.InitWaveStreamData x (some ⟨0, D⟩)] else []) }
        x ⟨0, D⟩ hx0 (by simp) rfl L d.FirstInstance fuel hL1 hne hxL hfuel
    have htx : t ≠ x := fun e => hxL (e ▸ htL)
    rw [hrun2]
    refine ⟨_, rfl, ?_, ?_, ?_, ?_, ?_, ?_⟩
    · simpa [InstanceList, hd] using hlist
    · simp [Function.update, htx.symm]
    · exact ⟨d, hd, rfl, rfl⟩
    · intro E _
      rfl
    · intro y hy
      by_cases hyt : y = t
      · subst hyt
        simp [Function.update, hy] at hit ⊢
        simp [hit]
      · simp [Function.update, hy, hyt]
    · rfl

theorem detached_head {x : Nat} {L : List Nat} : detached (x :: L) x = [] := by
  simp [detached]

theorem detached_of_ne {a x : Nat} {L : List Nat} (h : a ≠ x) :
    detached (a :: L) x = (a :: L).erase x := by
  simp [detached, h]

theorem not_mem_detached {x : Nat} {L : List Nat} (hnd : L.Nodup) : x ∉ detached L x := by
  unfold detached
  split
  · simp
  · intro h
    exact ((List.Nodup.mem_erase_iff hnd).mp h).1 rfl

/-- Detach: on a device whose traversal `L` holds `x`, the traversal afterwards is
`detached L x`; no `Device` field changes and nothing is called. -/
theorem UnlistSoundDeviceInstance_spec (fuel : Nat) (s : State) (x D : Nat)
    (ix : SOUND_DEVICE_INSTANCE) (d : SOUND_DEVICE) (L : List Nat)
    (hx0 : x ≠ 0) (hix : s.Instances x = some ix) (hown : ix.Device = D) (hD : D ≠ 0)
    (hd : s.Devices D = some d) (hL : IsList s.Instances d.FirstInstance L) (hxL : x ∈ L)
    (hfuel : d.FirstInstance ≠ x → L.length ≤ fuel + 1) :
    ∃ s1, UnlistSoundDeviceInstance fuel s x = .ok s1 ∧
      InstanceList s1 D (detached L x) ∧
      s1.Instances x = some ix ∧
      (∃ d1, s1.Devices D = some d1 ∧ d1.Functions = d.Functions ∧
        d1.DeviceType = d.DeviceType ∧
        d1.FirstInstance = if d.FirstInstance = x then 0 else d.FirstInstance) ∧
      (∀ E, E ≠ D → s1.Devices E = s.Devices E) ∧
      (∀ y, (s1.Instances y).map (·.Device) = (s.Instances y).map (·.Device)) ∧
      s1.Trace = s.Trace := by
  subst hown
  have hrun : UnlistSoundDeviceInstance fuel s x =
      if d.FirstInstance = x then setFirstInstance s ix.Device 0
      else
        match UnlistSoundDeviceInstance_loop fuel s d.FirstInstance x with
        | .error e => .error e
        | .ok CurrentInstance => setNext s CurrentInstance ix.Next := by
    simp only [UnlistSoundDeviceInstance, ASSERT, bind, Except.bind, loadInstance_ok hx0 hix,
      loadDevice_ok hD hd]
    simp [hD, hx0]
    split
    · rfl
    · cases UnlistSoundDeviceInstance_loop fuel s d.FirstInstance x <;> rfl
  rw [hrun]
  cases L with
  | nil => simp at hxL
  | cons a L =>
    obtain ⟨hp, ha, i, hi, hrest⟩ := IsList_cons.mp hL
    by_cases hf : d.FirstInstance = x
    · have hax : a = x := hp.symm.trans hf
      subst hax
      rw [if_pos hf, setFirstInstance_ok 0 hD hd]
      refine ⟨_, rfl, ?_, hix, ?_, ?_, ?_, rfl⟩
      · simp [InstanceList, IsList, detached]
      · exact ⟨{ d with FirstInstance := 0 }, by simp, rfl, rfl, by simp [hf]⟩
      · intro E hE
        simp [Function.update, hE]
      · intro y
        rfl
    · have hax : a ≠ x := fun e => hf (hp.trans e)
      rw [if_neg hf]
      obtain ⟨pred, ipred, jx, hpm, hpx, hp0, hip, hjx, hloop, hlist⟩ :=
        UnlistSoundDeviceInstance_loop_spec s x (a :: L) d.FirstInstance fuel hL hf hxL (hfuel hf)
      have hjx2 : jx = ix := Option.some.inj (hjx.symm.trans hix)
      subst hjx2
      rw [hloop]
      simp only []
      rw [setNext_ok jx.Next hp0 hip]
      refine ⟨_, rfl, ?_, ?_, ?_, ?_, ?_, rfl⟩
      · rw [detached_of_ne hax]
        simpa [InstanceList, hd] using hlist
      · simp [Function.update, hpx.symm, hix]
      · exact ⟨d, hd, rfl, rfl, by simp [hf]⟩
      · intro E _
        rfl
      · intro y
        by_cases hyp : y = pred
        · subst hyp
          simp [Function.update, hip]
        · simp [Function.update, hyp]

/-- Destroy: on a device whose traversal `L` holds `x`, the destructor and the
release are each called once, the traversal afterwards is `detached L x`, and the
result is `MMSYSERR_NOERROR` whatever the destructor returned. -/
theorem DestroySoundDeviceInstance_spec (fuel : Nat) (s : State) (x D : Nat)
    (ix : SOUND_DEVICE_INSTANCE) (d : SOUND_DEVICE) (L : List Nat)
    (hx0 : x ≠ 0) (hix : s.Instances x = some ix) (hown : ix.Device = D) (hD : D ≠ 0)
    (hd : s.Devices D = some d) (hL : IsList s.Instances d.FirstInstance L) (hxL : x ∈ L)
    (hfuel : d.FirstInstance ≠ x → L.length ≤ fuel + 1) :
    ∃ s1, DestroySoundDeviceInstance fuel s x = .ok (MMSYSERR_NOERROR, s1) ∧
      InstanceList s1 D (detached L x) ∧
      s1.Instances x = none ∧
      (∃ d1, s1.Devices D = some d1 ∧ d1.Functions = d.Functions ∧
        d1.DeviceType = d.DeviceType ∧
        d1.FirstInstance = if d.FirstInstance = x then 0 else d.FirstInstance) ∧
      (∀ E, E ≠ D → s1.Devices E = s.Devices E) ∧
      (∀ y, y ≠ x → (s1.Instances y).map (·.Device) = (s.Instances y).map (·.Device)) ∧
      s1.Trace = s.Trace ++ [.Destructor x, .FreeMemory x] := by
  obtain ⟨s1, hrun, hlist, _, ⟨d1, hd1, hfn, hty, hfirst⟩, hother, hdev, htrace⟩ :=
    UnlistSoundDeviceInstance_spec fuel (record s (.Destructor x)) x D ix d L hx0 hix hown hD
      hd hL hxL hfuel
  have hDd : loadDevice s ix.Device = .ok d := by
    rw [hown]
    exact loadDevice_ok hD hd
  refine ⟨FreeSoundDeviceInstance s1 x, ?_, ?_, ?_, ⟨d1, hd1, hfn, hty, hfirst⟩, hother, ?_, ?_⟩
  · simp [DestroySoundDeviceInstance, hx0, bind, Except.bind, loadInstance_ok hx0 hix, hDd,
      hrun, pure, Except.pure]
  · have hnot : x ∉ detached L x := not_mem_detached hL.nodup
    simp only [InstanceList, FreeSoundDeviceInstance, record, hd1] at hlist ⊢
    exact hlist.update_of_not_mem none hnot
  · simp [FreeSoundDeviceInstance, record]
  · intro y hy
    have := hdev y
    simpa [FreeSoundDeviceInstance, record, Function.update, hy] using this
  · simp [FreeSoundDeviceInstance, record, htrace]

theorem detached_append_self {x : Nat} {L : List Nat} (hxL : x ∉ L) :
    detached (L ++ [x]) x = L := by
  cases L with
  | nil => simp [detached]
  | cons a L =>
    have hax : a ≠ x := fun e => hxL (by simp [e])
    have h1 : (a :: L ++ [x]) = a :: (L ++ [x]) := rfl
    rw [h1, detached_of_ne hax, ← h1, List.erase_append_right _ hxL]
    simp

/-! ## The public routines -/

/-- Create up to the constructor call: the state in which the constructor result
is examined. -/
theorem CreateSoundDeviceInstance_listed (env : Env) (fuel : Nat) (s : State)
    (D x : Nat) (d : SOUND_DEVICE) (L : List Nat)
    (hD : D ≠ 0) (hd : s.Devices D = some d)
    (hL : IsList s.Instances d.FirstInstance L) (hk : KnownDeviceType d.DeviceType)
    (halloc : env.AllocateMemoryFor s = x) (hx0 : x ≠ 0) (hxL : x ∉ L)
    (hw : IS_WAVE_DEVICE_TYPE d.DeviceType = true →
      env.InitWaveStreamData x = MMSYSERR_NOERROR)
    (hfuel : L.length ≤ fuel) :
    ∃ s1 s2 d2, AllocateSoundDeviceInstance env s = .ok (x, s1) ∧
      ListSoundDeviceInstance env fuel s1 D x = .ok s2 ∧
      s2.Devices D = some d2 ∧ d2.Functions = d.Functions ∧ d2.DeviceType = d.DeviceType ∧
      IsList s2.Instances d2.FirstInstance (L ++ [x]) ∧
      s2.Instances x = some ⟨0, D⟩ ∧
      (∀ E, E ≠ D → s2.Devices E = s.Devices E) ∧
      (∀ y, y ≠ x → (s2.Instances y).map (·.Device) = (s.Instances y).map (·.Device)) ∧
      s2.Trace = s.Trace ++ [.AllocateMemoryFor x] ++
        (if IS_WAVE_DEVICE_TYPE d.DeviceType = true then
          [.InitWaveStreamData x (some ⟨0, D⟩)] else []) := by
  have hL1 : IsList (Function.update s.Instances x (some ⟨0, 0⟩)) d.FirstInstance L :=
    hL.update_of_not_mem _ hxL
  obtain ⟨s2, hrun, hlist, hx2, ⟨d2, hd2, hfn, hty⟩, hother, hdev, htrace⟩ :=
    ListSoundDeviceInstance_spec env fuel
      { s with Instances := Function.update s.Instances x (some ⟨0, 0⟩),
               Trace := s.Trace ++ [.AllocateMemoryFor x] }
      D x d L hD hx0 (by simp) hd hk hw hL1 hxL hfuel
  refine ⟨_, s2, d2, AllocateSoundDeviceInstance_ok env s x halloc hx0, hrun, hd2, hfn, hty,
    ?_, hx2, hother, ?_, htrace⟩
  · simpa [InstanceList, hd2] using hlist
  · intro y hy
    have := hdev y hy
    simpa [Function.update, hy] using this

/-- Create with a constructor that succeeds. -/
theorem CreateSoundDeviceInstance_ok_spec (env : Env) (fuel : Nat) (s : State)
    (D slot x : Nat) (d : SOUND_DEVICE) (L : List Nat)
    (hD : D ≠ 0) (hslot : slot ≠ 0) (hd : s.Devices D = some d)
    (hL : IsList s.Instances d.FirstInstance L) (hk : KnownDeviceType d.DeviceType)
    (halloc : env.AllocateMemoryFor s = x) (hx0 : x ≠ 0) (hxL : x ∉ L)
    (hw : IS_WAVE_DEVICE_TYPE d.DeviceType = true →
      env.InitWaveStreamData x = MMSYSERR_NOERROR)
    (hctor : d.Functions.Constructor x = MMSYSERR_NOERROR)
    (hfuel : L.length ≤ fuel) :
    ∃ s1 d1, CreateSoundDeviceInstance env fuel s D slot =
        .ok ((MMSYSERR_NOERROR, some x), s1) ∧
      s1.Devices D = some d1 ∧ d1.Functions = d.Functions ∧ d1.DeviceType = d.DeviceType ∧
      IsList s1.Instances d1.FirstInstance (L ++ [x]) ∧
      s1.Instances x = some ⟨0, D⟩ ∧
      (∀ E, E ≠ D → s1.Devices E = s.Devices E) ∧
      (∀ y, y ≠ x → (s1.Instances y).map (·.Device) = (s.Instances y).map (·.Device)) ∧
      s1.Trace = s.Trace ++ [.AllocateMemoryFor x] ++
        (if IS_WAVE_DEVICE_TYPE d.DeviceType = true then
          [.InitWaveStreamData x (some ⟨0, D⟩)] else []) ++
        [.Constructor x] := by
  obtain ⟨s1, s2, d2, hal, hrun, hd2, hfn, hty, hlist, hx2, hother, hdev, htrace⟩ :=
    CreateSoundDeviceInstance_listed env fuel s D x d L hD hd hL hk halloc hx0 hxL hw hfuel
  have hc : d2.Functions.Constructor x = MMSYSERR_NOERROR := by rw [hfn]; exact hctor
  refine ⟨record s2 (.Constructor x), d2, ?_, hd2, hfn, hty, hlist, hx2, hother, hdev, ?_⟩
  · simp [CreateSoundDeviceInstance, hD, hslot, bind, Except.bind, hal, hx0, hrun,
      loadDevice_ok hD hd2, hc, pure, Except.pure]
  · simp [record, htrace]

/-- Create with a constructor that fails: the new instance is detached and
released again. -/
theorem CreateSoundDeviceInstance_fail_spec (env : Env) (fuel : Nat) (s : State)
    (D slot x : Nat) (c : MMRESULT) (d : SOUND_DEVICE) (L : List Nat)
    (hD : D ≠ 0) (hslot : slot ≠ 0) (hd : s.Devices D = some d)
    (hL : IsList s.Instances d.FirstInstance L) (hk : KnownDeviceType d.DeviceType)
    (halloc : env.AllocateMemoryFor s = x) (hx0 : x ≠ 0) (hxL : x ∉ L)
    (hw : IS_WAVE_DEVICE_TYPE d.DeviceType = true →
      env.InitWaveStreamData x = MMSYSERR_NOERROR)
    (hctor : d.Functions.Constructor x = c) (hc : c ≠ MMSYSERR_NOERROR)
    (hfuel : L.length ≤ fuel) :
    ∃ s1 d1, CreateSoundDeviceInstance env fuel s D slot = .ok ((c, some 0), s1) ∧
      s1.Devices D = some d1 ∧ d1.Functions = d.Functions ∧ d1.DeviceType = d.DeviceType ∧
      IsList s1.Instances d1.FirstInstance L ∧
      s1.Instances x = none ∧
      (∀ E, E ≠ D → s1.Devices E = s.Devices E) ∧
      (∀ y, y ≠ x → (s1.Instances y).map (·.Device) = (s.Instances y).map (·.Device)) ∧
      s1.Trace = s.Trace ++ [.AllocateMemoryFor x] ++
        (if IS_WAVE_DEVICE_TYPE d.DeviceType = true then
          [.InitWaveStreamData x (some ⟨0, D⟩)] else []) ++
        [.Constructor x, .FreeMemory x] := by
  obtain ⟨s1, s2, d2, hal, hrun, hd2, hfn, hty, hlist, hx2, hother, hdev, htrace⟩ :=
    CreateSoundDeviceInstance_listed env fuel s D x d L hD hd hL hk halloc hx0 hxL hw hfuel
  have hcc : d2.Functions.Constructor x = c := by rw [hfn]; exact hctor
  obtain ⟨s4, hun, hlist4, _, ⟨d4, hd4, hfn4, hty4, _⟩, hother4, hdev4, htrace4⟩ :=
    UnlistSoundDeviceInstance_spec fuel (record s2 (.Constructor x)) x D ⟨0, D⟩ d2 (L ++ [x])
      hx0 hx2 rfl hD hd2 hlist (by simp) (fun _ => by simp; omega)
  rw [detached_append_self hxL] at hlist4
  refine ⟨FreeSoundDeviceInstance s4 x, d4, ?_, hd4, hfn4.trans hfn, hty4.trans hty, ?_, ?_,
    ?_, ?_, ?_⟩
  · simp [CreateSoundDeviceInstance, hD, hslot, bind, Except.bind, hal, hx0, hrun,
      loadDevice_ok hD hd2, hcc, hc, hun, pure, Except.pure]
  · simp only [InstanceList, hd4] at hlist4
    exact hlist4.update_of_not_mem none hxL
  · simp [FreeSoundDeviceInstance, record]
  · intro E hE
    exact (hother4 E hE).trans (hother E hE)
  · intro y hy
    have h1 := hdev4 y
    have h2 := hdev y hy
    simp only [FreeSoundDeviceInstance, record, Function.update] at h1 ⊢
    simp only [hy, dite_false, ↓reduceDIte]
    exact h1.trans h2
  · simp [FreeSoundDeviceInstance, record, htrace4, htrace]

/-! ## Create: append order and rollback -/

/-- C1 (append order): on a device `D` whose traversal is the well-formed list `L`
(a chain that reaches `NULL`, hence acyclic and free of duplicates), when the call
reaches a constructor hook that returns `MMSYSERR_NOERROR` on the new instance `x`
(device and output slot are not `NULL`, the allocator hands out the non-null
address `x`, which is not in `L`, the device type is a known one and the wave
initializer, when it runs, succeeds), `CreateSoundDeviceInstance` returns
`MMSYSERR_NOERROR` with `x` in the output slot and the traversal of `D` afterwards
is `L ++ [x]`; the device keeps its type and its hooks, so the step can be
repeated (A, B, C in turn give `[A, B, C]`). The walk to the tail needs fuel
`L.length`. -/
theorem CreateSoundDeviceInstance_append_order (env : Env) (fuel : Nat) (s : State)
    (D slot x : Nat) (d : SOUND_DEVICE) (L : List Nat)
    (hD : D ≠ 0) (hslot : slot ≠ 0) (hd : s.Devices D = some d)
    (hL : InstanceList s D L) (hk : KnownDeviceType d.DeviceType)
    (halloc : env.AllocateMemoryFor s = x) (hx0 : x ≠ 0) (hxL : x ∉ L)
    (hw : IS_WAVE_DEVICE_TYPE d.DeviceType = true →
      env.InitWaveStreamData x = MMSYSERR_NOERROR)
    (hctor : d.Functions.Constructor x = MMSYSERR_NOERROR)
    (hfuel : L.length ≤ fuel) :
    ∃ s1, CreateSoundDeviceInstance env fuel s D slot =
        .ok ((MMSYSERR_NOERROR, some x), s1) ∧
      InstanceList s1 D (L ++ [x]) ∧
      ∃ d1, s1.Devices D = some d1 ∧ d1.Functions = d.Functions ∧
        d1.DeviceType = d.DeviceType := by
  simp only [InstanceList, hd] at hL
  obtain ⟨s1, d1, hrun, hd1, hfn, hty, hlist, _⟩ :=
    CreateSoundDeviceInstance_ok_spec env fuel s D slot x d L hD hslot hd hL hk halloc hx0
      hxL hw hctor hfuel
  exact ⟨s1, hrun, by simpa [InstanceList, hd1] using hlist, d1, hd1, hfn, hty⟩

/-- Witness for C1: on a WaveOut device holding `[1, 2]`, creating the instance
at address `3` gives `[1, 2, 3]`. -/
theorem CreateSoundDeviceInstance_append_order_witness :
    ∃ s1, CreateSoundDeviceInstance (constEnv 3 0) 2
        (deviceState WAVE_OUT_DEVICE_TYPE (constTable 0 0) 100 [1, 2]) 100 1 =
        .ok ((MMSYSERR_NOERROR, some 3), s1) ∧
      InstanceList s1 100 ([1, 2] ++ [3]) ∧
      ∃ d1, s1.Devices 100 = some d1 ∧ d1.Functions = constTable 0 0 ∧
        d1.DeviceType = WAVE_OUT_DEVICE_TYPE :=
  CreateSoundDeviceInstance_append_order (constEnv 3 0) 2
    (deviceState WAVE_OUT_DEVICE_TYPE (constTable 0 0) 100 [1, 2]) 100 1 3
    ⟨WAVE_OUT_DEVICE_TYPE, 1, constTable 0 0⟩ [1, 2]
    (by decide) (by decide) rfl (by decide) (by decide) rfl (by decide) (by decide)
    (fun _ => rfl) rfl (by decide)

/-- Three creates in a row on an empty device whose constructor always succeeds:
the instances `A`, `B`, `C` handed out by the allocator end up listed in the
order `[A, B, C]`. -/
theorem CreateSoundDeviceInstance_three_in_order (env : Env) (fuel : Nat) (s : State)
    (D slot A B C : Nat) (d : SOUND_DEVICE)
    (hD : D ≠ 0) (hslot : slot ≠ 0) (hd : s.Devices D = some d)
    (hempty : d.FirstInstance = 0) (hk : KnownDeviceType d.DeviceType)
    (hA : env.AllocateMemoryFor s = A)
    (hB : ∀ s1, CreateSoundDeviceInstance env fuel s D slot =
      .ok ((MMSYSERR_NOERROR, some A), s1) → env.AllocateMemoryFor s1 = B)
    (hC : ∀ s1 s2, CreateSoundDeviceInstance env fuel s D slot =
      .ok ((MMSYSERR_NOERROR, some A), s1) →
      CreateSoundDeviceInstance env fuel s1 D slot =
      .ok ((MMSYSERR_NOERROR, some B), s2) → env.AllocateMemoryFor s2 = C)
    (hA0 : A ≠ 0) (hB0 : B ≠ 0) (hC0 : C ≠ 0) (hAB : A ≠ B) (hAC : A ≠ C) (hBC : B ≠ C)
    (hw : IS_WAVE_DEVICE_TYPE d.DeviceType = true →
      ∀ x, env.InitWaveStreamData x = MMSYSERR_NOERROR)
    (hctor : ∀ x, d.Functions.Constructor x = MMSYSERR_NOERROR)
    (hfuel : 2 ≤ fuel) :
    ∃ s1 s2 s3,
      CreateSoundDeviceInstance env fuel s D slot = .ok ((MMSYSERR_NOERROR, some A), s1) ∧
      CreateSoundDeviceInstance env fuel s1 D slot = .ok ((MMSYSERR_NOERROR, some B), s2) ∧
      CreateSoundDeviceInstance env fuel s2 D slot = .ok ((MMSYSERR_NOERROR, some C), s3) ∧
      InstanceList s3 D [A, B, C] := by
  have hL0 : IsList s.Instances d.FirstInstance [] := by simp [IsList, hempty]
  obtain ⟨s1, d1, hrun1, hd1, hfn1, hty1, hlist1, _⟩ :=
    CreateSoundDeviceInstance_ok_spec env fuel s D slot A d [] hD hslot hd hL0 hk hA hA0
      (by simp) (fun h => hw h A) (hctor A) (by simp)
  obtain ⟨s2, d2, hrun2, hd2, hfn2, hty2, hlist2, _⟩ :=
    CreateSoundDeviceInstance_ok_spec env fuel s1 D slot B d1 [A] hD hslot hd1 hlist1
      (hty1 ▸ hk) (hB s1 hrun1) hB0 (by simp [hAB.symm]) (fun h => hw (hty1 ▸ h) B)
      (by rw [hfn1]; exact hctor B) (by simp; omega)
  obtain ⟨s3, d3, hrun3, hd3, _, _, hlist3, _⟩ :=
    CreateSoundDeviceInstance_ok_spec env fuel s2 D slot C d2 [A, B] hD hslot hd2 hlist2
      (hty2 ▸ hty1 ▸ hk) (hC s1 s2 hrun1 hrun2) hC0 (by simp [hAC.symm, hBC.symm])
      (fun h => hw (hty1 ▸ hty2 ▸ h) C) (by rw [hfn2, hfn1]; exact hctor C) (by simpa using hfuel)
  exact ⟨s1, s2, s3, hrun1, hrun2, hrun3, by simpa [InstanceList, hd3] using hlist3⟩

/-- C2 (rollback on constructor failure): on a device `D` whose traversal is the
well-formed list `L`, empty or not, when the constructor hook returns a code `c`
other than `MMSYSERR_NOERROR` on the new instance `x` (the call reaches the hook
as in C1), `CreateSoundDeviceInstance` returns exactly `c`, stores `NULL` in the
output slot, releases `x`, and the traversal of `D` afterwards is `L` again: the
same instances in the same order. -/
theorem CreateSoundDeviceInstance_rollback (env : Env) (fuel : Nat) (s : State)
    (D slot x : Nat) (c : MMRESULT) (d : SOUND_DEVICE) (L : List Nat)
    (hD : D ≠ 0) (hslot : slot ≠ 0) (hd : s.Devices D = some d)
    (hL : InstanceList s D L) (hk : KnownDeviceType d.DeviceType)
    (halloc : env.AllocateMemoryFor s = x) (hx0 : x ≠ 0) (hxL : x ∉ L)
    (hw : IS_WAVE_DEVICE_TYPE d.DeviceType = true →
      env.InitWaveStreamData x = MMSYSERR_NOERROR)
    (hctor : d.Functions.Constructor x = c) (hc : c ≠ MMSYSERR_NOERROR)
    (hfuel : L.length ≤ fuel) :
    ∃ s1, CreateSoundDeviceInstance env fuel s D slot = .ok ((c, some 0), s1) ∧
      InstanceList s1 D L ∧ s1.Instances x = none := by
  simp only [InstanceList, hd] at hL
  obtain ⟨s1, d1, hrun, hd1, _, _, hlist, hfree, _⟩ :=
    CreateSoundDeviceInstance_fail_spec env fuel s D slot x c d L hD hslot hd hL hk halloc
      hx0 hxL hw hctor hc hfuel
  exact ⟨s1, hrun, by simpa [InstanceList, hd1] using hlist, hfree⟩

/-- Witness for C2: on a WaveOut device holding `[1, 2]` whose constructor returns
`MMSYSERR_ALLOCATED`, create returns that code and the list is `[1, 2]` again. -/
theorem CreateSoundDeviceInstance_rollback_witness :
    ∃ s1, CreateSoundDeviceInstance (constEnv 3 0) 2
        (deviceState WAVE_OUT_DEVICE_TYPE (constTable MMSYSERR_ALLOCATED 0) 100 [1, 2])
        100 1 = .ok ((MMSYSERR_ALLOCATED, some 0), s1) ∧
      InstanceList s1 100 [1, 2] ∧ s1.Instances 3 = none :=
  CreateSoundDeviceInstance_rollback (constEnv 3 0) 2
    (deviceState WAVE_OUT_DEVICE_TYPE (constTable MMSYSERR_ALLOCATED 0) 100 [1, 2]) 100 1 3
    MMSYSERR_ALLOCATED ⟨WAVE_OUT_DEVICE_TYPE, 1, constTable MMSYSERR_ALLOCATED 0⟩ [1, 2]
    (by decide) (by decide) rfl (by decide) (by decide) rfl (by decide) (by decide)
    (fun _ => rfl) rfl (by decide) (by decide)

/-! ## Destroy and destroy-all -/

theorem OwnedBy_iff {s : State} {x D : Nat} :
    OwnedBy s x D ↔ ∃ i, s.Instances x = some i ∧ i.Device = D := by
  unfold OwnedBy
  cases s.Instances x <;> simp

/-- C3 (destroy removes exactly one): on a device `D` whose traversal is the
well-formed list `L`, for an instance `x` of `L` owned by `D` that is not the head
of `L`, or that is the only instance of `L`, `DestroySoundDeviceInstance` returns
`MMSYSERR_NOERROR`, releases `x`, and the traversal of `D` afterwards is `L` with
`x` erased, the other instances in their original order. -/
theorem DestroySoundDeviceInstance_removes_one (fuel : Nat) (s : State) (D x : Nat)
    (L : List Nat) (hD : D ≠ 0) (hL : InstanceList s D L) (hxL : x ∈ L)
    (hown : OwnedBy s x D) (hpos : L.head? ≠ some x ∨ L = [x])
    (hfuel : L.length ≤ fuel + 1) :
    ∃ s1, DestroySoundDeviceInstance fuel s x = .ok (MMSYSERR_NOERROR, s1) ∧
      InstanceList s1 D (L.erase x) ∧ s1.Instances x = none := by
  obtain ⟨ix, hix, hdev⟩ := OwnedBy_iff.mp hown
  unfold InstanceList at hL
  cases hd : s.Devices D with
  | none => simp [hd] at hL
  | some d =>
    simp only [hd] at hL
    have hx0 : x ≠ 0 := hL.ne_null x hxL
    obtain ⟨s1, hrun, hlist, hfree, _⟩ :=
      DestroySoundDeviceInstance_spec fuel s x D ix d L hx0 hix hdev hD hd hL hxL
        (fun _ => hfuel)
    refine ⟨s1, hrun, ?_, hfree⟩
    have he : detached L x = L.erase x := by
      rcases hpos with h | h
      · simp [detached, h]
      · subst h
        simp [detached]
    rw [← he]
    exact hlist

/-- Witness for C3: destroying `2` out of `[1, 2, 3]` leaves `[1, 3]`. -/
theorem DestroySoundDeviceInstance_removes_one_witness :
    ∃ s1, DestroySoundDeviceInstance 2
        (deviceState WAVE_OUT_DEVICE_TYPE (constTable 0 0) 100 [1, 2, 3]) 2 =
        .ok (MMSYSERR_NOERROR, s1) ∧
      InstanceList s1 100 ([1, 2, 3].erase 2) ∧ s1.Instances 2 = none :=
  DestroySoundDeviceInstance_removes_one 2
    (deviceState WAVE_OUT_DEVICE_TYPE (constTable 0 0) 100 [1, 2, 3]) 100 2 [1, 2, 3]
    (by decide) (by decide) (by decide) (by decide) (Or.inl (by decide)) (by decide)

/-- Destroy-all on a device whose traversal is `L`: at most one destroy is made,
on the head of `L`, after which `FirstInstance` is `NULL` and the loop ends;
the instances behind the head are neither visited nor released. -/
theorem DestroyAllInstancesOfSoundDevice_spec (fuel : Nat) (s : State) (D : Nat)
    (d : SOUND_DEVICE) (L : List Nat) (hD : D ≠ 0) (hd : s.Devices D = some d)
    (hL : IsList s.Instances d.FirstInstance L)
    (hown : ∀ a, L.head? = some a → OwnedBy s a D) (hfuel : 2 ≤ fuel) :
    ∃ s1 d1, DestroyAllInstancesOfSoundDevice fuel s D = .ok (MMSYSERR_NOERROR, s1) ∧
      s1.Devices D = some d1 ∧ d1.FirstInstance = 0 ∧
      s1.Trace = s.Trace ++ (L.take 1).flatMap (fun a => [.Destructor a, .FreeMemory a]) ∧
      (∀ y, y ∈ L.tail → (s1.Instances y).map (·.Device) = (s.Instances y).map (·.Device)) := by
  obtain ⟨n, rfl⟩ : ∃ n, fuel = n + 2 := ⟨fuel - 2, by omega⟩
  cases L with
  | nil =>
    have hf : d.FirstInstance = 0 := IsList_nil.mp hL
    refine ⟨s, d, ?_, hd, hf, by simp, fun y _ => rfl⟩
    simp [DestroyAllInstancesOfSoundDevice, hD, DestroyAllInstancesOfSoundDevice_loop,
      loadDevice_ok hD hd, hf]
  | cons a L =>
    obtain ⟨hp, ha, i, hi, hrest⟩ := IsList_cons.mp hL
    obtain ⟨ia, hia, hdev⟩ := OwnedBy_iff.mp (hown a rfl)
    obtain ⟨s1, hrun, _, _, ⟨d1, hd1, _, _, hfirst⟩, _, hdevs, htrace⟩ :=
      DestroySoundDeviceInstance_spec (n + 2) s a D ia d (a :: L) ha hia hdev hD hd hL
        (by simp) (fun h => absurd hp h)
    have hf1 : d1.FirstInstance = 0 := by simpa [hp] using hfirst
    have hfa : d.FirstInstance ≠ 0 := hp ▸ ha
    refine ⟨s1, d1, ?_, hd1, hf1, by simp [htrace], ?_⟩
    · simp [DestroyAllInstancesOfSoundDevice, hD, DestroyAllInstancesOfSoundDevice_loop,
        loadDevice_ok hD hd, hfa, ha, hp, hrun, loadDevice_ok hD hd1, hf1]
    · intro y hy
      have hnd := hL.nodup
      have hya : y ≠ a := by
        rintro rfl
        exact (List.nodup_cons.mp hnd).1 hy
      exact hdevs y hya

/-- C4 (code behaviour at the failing input): on a device holding `[1, 2]`,
destroy-all returns `MMSYSERR_NOERROR` after a single destroy: the destructor is
called on `1` only, `FirstInstance` is `NULL`, and instance `2` is still allocated,
never visited and never released. -/
theorem DestroyAllInstancesOfSoundDevice_two_instances :
    ∃ s1, DestroyAllInstancesOfSoundDevice 5
        (deviceState WAVE_OUT_DEVICE_TYPE (constTable 0 0) 100 [1, 2]) 100 =
        .ok (MMSYSERR_NOERROR, s1) ∧
      s1.Trace = [.Destructor 1, .FreeMemory 1] ∧
      InstanceList s1 100 [] ∧
      s1.Instances 2 = some ⟨0, 100⟩ :=
  ⟨_, rfl, by decide, by decide, by decide⟩

/-- C5 (code behaviour at the failing input): on a device holding `[1, 2]`,
destroying the head `1` leaves `FirstInstance` at `NULL`, not at the instance `2`
that followed the head; the traversal afterwards is empty, not `[2]`. -/
theorem DestroySoundDeviceInstance_head_of_two :
    ∃ s1, DestroySoundDeviceInstance 5
        (deviceState WAVE_OUT_DEVICE_TYPE (constTable 0 0) 100 [1, 2]) 1 =
        .ok (MMSYSERR_NOERROR, s1) ∧
      (s1.Devices 100).map (·.FirstInstance) = some 0 ∧
      InstanceList s1 100 [] ∧ ¬ InstanceList s1 100 [2] ∧
      s1.Instances 2 = some ⟨0, 100⟩ :=
  ⟨_, rfl, by decide, by decide, by decide, by decide⟩

/-- C6 (drain terminates and empties): for a device `D ≠ NULL` whose traversal is a
well-formed list `L` of instances owned by `D`, and for any destructor hook,
`DestroyAllInstancesOfSoundDevice` returns with any fuel of at least two rounds,
the result is `MMSYSERR_NOERROR`, and `FirstInstance` of `D` is `NULL` afterwards. -/
theorem DestroyAllInstancesOfSoundDevice_terminates (fuel : Nat) (s : State) (D : Nat)
    (L : List Nat) (hD : D ≠ 0) (hL : InstanceList s D L)
    (hown : ∀ x ∈ L, OwnedBy s x D) (hfuel : 2 ≤ fuel) :
    ∃ s1, DestroyAllInstancesOfSoundDevice fuel s D = .ok (MMSYSERR_NOERROR, s1) ∧
      InstanceList s1 D [] ∧
      ∃ d1, s1.Devices D = some d1 ∧ d1.FirstInstance = 0 := by
  unfold InstanceList at hL
  cases hd : s.Devices D with
  | none => simp [hd] at hL
  | some d =>
    simp only [hd] at hL
    obtain ⟨s1, d1, hrun, hd1, hf1, _⟩ :=
      DestroyAllInstancesOfSoundDevice_spec fuel s D d L hD hd hL
        (fun a ha => hown a (List.mem_of_mem_head? ha)) hfuel
    exact ⟨s1, hrun, by simp [InstanceList, hd1, IsList, hf1], d1, hd1, hf1⟩

/-- Witness for C6: destroy-all on a device holding `[1, 2, 3]` whose destructor
fails with code `1` returns `MMSYSERR_NOERROR` and leaves `FirstInstance` at `NULL`. -/
theorem DestroyAllInstancesOfSoundDevice_terminates_witness :
    ∃ s1, DestroyAllInstancesOfSoundDevice 2
        (deviceState MIDI_IN_DEVICE_TYPE (constTable 0 1) 100 [1, 2, 3]) 100 =
        .ok (MMSYSERR_NOERROR, s1) ∧
      InstanceList s1 100 [] ∧
      ∃ d1, s1.Devices 100 = some d1 ∧ d1.FirstInstance = 0 :=
  DestroyAllInstancesOfSoundDevice_terminates 2
    (deviceState MIDI_IN_DEVICE_TYPE (constTable 0 1) 100 [1, 2, 3]) 100 [1, 2, 3]
    (by decide) (by decide) (by decide) (by decide)

/-! ## Parameter checks -/

/-- The routine `GetSoundDeviceFromInstance` is its two assertions followed by its
parameter checks and the read. -/
theorem GetSoundDeviceFromInstance_eq_checks (s : State) (x slot : Nat) :
    GetSoundDeviceFromInstance s x slot =
      (ASSERT (x != 0)).bind (fun _ =>
        (ASSERT (slot != 0)).bind (fun _ => GetSoundDeviceFromInstance_checks s x slot)) := by
  unfold GetSoundDeviceFromInstance GetSoundDeviceFromInstance_checks
  by_cases hx : x = 0 <;> by_cases hs : slot = 0 <;>
    simp [ASSERT, bind, Except.bind, hx, hs, pure, Except.pure]
  cases loadInstance s x <;> rfl

/-- Parameter checks with a `NULL` argument, in every state:
`CreateSoundDeviceInstance` with a `NULL` device or a `NULL` output slot,
`DestroySoundDeviceInstance` with a `NULL` instance and
`DestroyAllInstancesOfSoundDevice` with a `NULL` device each return
`MMSYSERR_INVALPARAM` in the very state they were called in (nothing stored, no
call recorded); `GetSoundDeviceFromInstance` with a `NULL` instance or a `NULL`
output slot ends in a failed assertion before its parameter checks, although
those checks return `MMSYSERR_INVALPARAM`. -/
theorem null_parameters_rejected :
    (∀ (env : Env) (fuel : Nat) (s : State) (slot : Nat),
      CreateSoundDeviceInstance env fuel s 0 slot = .ok ((MMSYSERR_INVALPARAM, none), s)) ∧
    (∀ (env : Env) (fuel : Nat) (s : State) (D : Nat),
      CreateSoundDeviceInstance env fuel s D 0 = .ok ((MMSYSERR_INVALPARAM, none), s)) ∧
    (∀ (fuel : Nat) (s : State),
      DestroySoundDeviceInstance fuel s 0 = .ok (MMSYSERR_INVALPARAM, s)) ∧
    (∀ (fuel : Nat) (s : State),
      DestroyAllInstancesOfSoundDevice fuel s 0 = .ok (MMSYSERR_INVALPARAM, s)) ∧
    (∀ (s : State) (slot : Nat),
      GetSoundDeviceFromInstance s 0 slot = .error .AssertFailed) ∧
    (∀ (s : State) (x : Nat),
      GetSoundDeviceFromInstance s x 0 = .error .AssertFailed) ∧
    (∀ (s : State) (slot : Nat),
      GetSoundDeviceFromInstance_checks s 0 slot = .ok ((MMSYSERR_INVALPARAM, none), s)) ∧
    (∀ (s : State) (x : Nat),
      GetSoundDeviceFromInstance_checks s x 0 = .ok ((MMSYSERR_INVALPARAM, none), s)) := by
  refine ⟨?_, ?_, ?_, ?_, ?_, ?_, ?_, ?_⟩
  · intro env fuel s slot
    simp [CreateSoundDeviceInstance]
  · intro env fuel s D
    by_cases hD : D = 0 <;> simp [CreateSoundDeviceInstance, hD]
  · intro fuel s
    simp [DestroySoundDeviceInstance]
  · intro fuel s
    simp [DestroyAllInstancesOfSoundDevice]
  · intro s slot
    simp [GetSoundDeviceFromInstance, ASSERT, bind, Except.bind]
  · intro s x
    by_cases hx : x = 0 <;> simp [GetSoundDeviceFromInstance, ASSERT, bind, Except.bind, hx]
  · intro s slot
    simp [GetSoundDeviceFromInstance_checks]
  · intro s x
    by_cases hx : x = 0 <;> simp [GetSoundDeviceFromInstance_checks, hx]

/-! ## Ownership -/

theorem GetSoundDeviceFromInstance_ok (s : State) (x slot : Nat) (i : SOUND_DEVICE_INSTANCE)
    (hx0 : x ≠ 0) (hslot : slot ≠ 0) (hi : s.Instances x = some i) :
    GetSoundDeviceFromInstance s x slot = .ok ((MMSYSERR_NOERROR, some i.Device), s) := by
  simp [GetSoundDeviceFromInstance, ASSERT, bind, Except.bind, hx0, hslot,
    loadInstance_ok hx0 hi, pure, Except.pure]

/-- C8 (single ownership): on a device `D` whose traversal is the well-formed list
`L`, when `CreateSoundDeviceInstance` succeeds with the new instance `x` (the
allocator hands out a non-null address that is not in `L`),
`GetSoundDeviceFromInstance` on `x` returns `MMSYSERR_NOERROR` with exactly `D`, in
an unchanged state, and `x` occurs exactly once in the traversal of `D`. -/
theorem CreateSoundDeviceInstance_single_ownership (env : Env) (fuel : Nat) (s : State)
    (D slot x : Nat) (d : SOUND_DEVICE) (L : List Nat)
    (hD : D ≠ 0) (hslot : slot ≠ 0) (hd : s.Devices D = some d)
    (hL : InstanceList s D L) (hk : KnownDeviceType d.DeviceType)
    (halloc : env.AllocateMemoryFor s = x) (hx0 : x ≠ 0) (hxL : x ∉ L)
    (hw : IS_WAVE_DEVICE_TYPE d.DeviceType = true →
      env.InitWaveStreamData x = MMSYSERR_NOERROR)
    (hctor : d.Functions.Constructor x = MMSYSERR_NOERROR)
    (hfuel : L.length ≤ fuel) :
    ∃ s1 L1, CreateSoundDeviceInstance env fuel s D slot =
        .ok ((MMSYSERR_NOERROR, some x), s1) ∧
      (∀ slot1, slot1 ≠ 0 →
        GetSoundDeviceFromInstance s1 x slot1 = .ok ((MMSYSERR_NOERROR, some D), s1)) ∧
      InstanceList s1 D L1 ∧ L1.count x = 1 := by
  simp only [InstanceList, hd] at hL
  obtain ⟨s1, d1, hrun, hd1, _, _, hlist, hx1, _⟩ :=
    CreateSoundDeviceInstance_ok_spec env fuel s D slot x d L hD hslot hd hL hk halloc hx0
      hxL hw hctor hfuel
  refine ⟨s1, L ++ [x], hrun, ?_, by simpa [InstanceList, hd1] using hlist, ?_⟩
  · intro slot1 hslot1
    exact GetSoundDeviceFromInstance_ok s1 x slot1 ⟨0, D⟩ hx0 hslot1 hx1
  · simp [List.count_append, List.count_eq_zero_of_not_mem hxL]

/-- Witness for C8: the instance created at address `3` on the device at `100`
holding `[1, 2]` reports `100` as its device and is listed once. -/
theorem CreateSoundDeviceInstance_single_ownership_witness :
    ∃ s1 L1, CreateSoundDeviceInstance (constEnv 3 0) 2
        (deviceState WAVE_IN_DEVICE_TYPE (constTable 0 0) 100 [1, 2]) 100 1 =
        .ok ((MMSYSERR_NOERROR, some 3), s1) ∧
      (∀ slot1, slot1 ≠ 0 →
        GetSoundDeviceFromInstance s1 3 slot1 = .ok ((MMSYSERR_NOERROR, some 100), s1)) ∧
      InstanceList s1 100 L1 ∧ L1.count 3 = 1 :=
  CreateSoundDeviceInstance_single_ownership (constEnv 3 0) 2
    (deviceState WAVE_IN_DEVICE_TYPE (constTable 0 0) 100 [1, 2]) 100 1 3
    ⟨WAVE_IN_DEVICE_TYPE, 1, constTable 0 0⟩ [1, 2]
    (by decide) (by decide) rfl (by decide) (by decide) rfl (by decide) (by decide)
    (fun _ => rfl) rfl (by decide)

/-! ## The destructor result -/

/-- C9 (destroy ignores the destructor's outcome): for an instance `x` listed in
the well-formed traversal `L` of its owning device `D`, and any two destructor
hooks `g1` and `g2` installed on `D`, `DestroySoundDeviceInstance` returns
`MMSYSERR_NOERROR` in both runs, and both runs leave the same traversal of `D`,
without `x`, and `x` released. -/
theorem DestroySoundDeviceInstance_ignores_destructor (fuel : Nat) (s : State) (D x : Nat)
    (L : List Nat) (g1 g2 : Nat → MMRESULT)
    (hD : D ≠ 0) (hL : InstanceList s D L) (hxL : x ∈ L) (hown : OwnedBy s x D)
    (hfuel : L.length ≤ fuel + 1) :
    ∃ s1 s2 L1,
      DestroySoundDeviceInstance fuel (withDestructor s D g1) x = .ok (MMSYSERR_NOERROR, s1) ∧
      DestroySoundDeviceInstance fuel (withDestructor s D g2) x = .ok (MMSYSERR_NOERROR, s2) ∧
      InstanceList s1 D L1 ∧ InstanceList s2 D L1 ∧ x ∉ L1 ∧
      s1.Instances x = none ∧ s2.Instances x = none := by
  obtain ⟨ix, hix, hdev⟩ := OwnedBy_iff.mp hown
  unfold InstanceList at hL
  cases hd : s.Devices D with
  | none => simp [hd] at hL
  | some d =>
    simp only [hd] at hL
    have hx0 : x ≠ 0 := hL.ne_null x hxL
    have hd1 : (withDestructor s D g1).Devices D =
        some { d with Functions := { d.Functions with Destructor := g1 } } := by
      simp [withDestructor, hd]
    have hd2 : (withDestructor s D g2).Devices D =
        some { d with Functions := { d.Functions with Destructor := g2 } } := by
      simp [withDestructor, hd]
    obtain ⟨s1, hrun1, hlist1, hfree1, _⟩ :=
      DestroySoundDeviceInstance_spec fuel (withDestructor s D g1) x D ix _ L hx0 hix hdev hD
        hd1 hL hxL (fun _ => hfuel)
    obtain ⟨s2, hrun2, hlist2, hfree2, _⟩ :=
      DestroySoundDeviceInstance_spec fuel (withDestructor s D g2) x D ix _ L hx0 hix hdev hD
        hd2 hL hxL (fun _ => hfuel)
    exact ⟨s1, s2, detached L x, hrun1, hrun2, hlist1, hlist2, not_mem_detached hL.nodup,
      hfree1, hfree2⟩

/-- Witness for C9: destroying `2` out of `[1, 2, 3]` with a destructor that
succeeds and with one that fails with code `1`. -/
theorem DestroySoundDeviceInstance_ignores_destructor_witness :
    ∃ s1 s2 L1,
      DestroySoundDeviceInstance 2
        (withDestructor (deviceState AUX_DEVICE_TYPE (constTable 0 0) 100 [1, 2, 3]) 100
          (fun _ => 0)) 2 = .ok (MMSYSERR_NOERROR, s1) ∧
      DestroySoundDeviceInstance 2
        (withDestructor (deviceState AUX_DEVICE_TYPE (constTable 0 0) 100 [1, 2, 3]) 100
          (fun _ => 1)) 2 = .ok (MMSYSERR_NOERROR, s2) ∧
      InstanceList s1 100 L1 ∧ InstanceList s2 100 L1 ∧ 2 ∉ L1 ∧
      s1.Instances 2 = none ∧ s2.Instances 2 = none :=
  DestroySoundDeviceInstance_ignores_destructor 2
    (deviceState AUX_DEVICE_TYPE (constTable 0 0) 100 [1, 2, 3]) 100 2 [1, 2, 3]
    (fun _ => 0) (fun _ => 1) (by decide) (by decide) (by decide) (by decide) (by decide)

/-! ## Out of memory -/

/-- C10 (out of memory leaves nothing behind): for a device `D ≠ NULL` and a
non-null output slot, when the allocator returns `NULL`,
`CreateSoundDeviceInstance` returns `MMSYSERR_NOMEM`, stores nothing, records the
allocator call and no other (neither the wave initializer nor the constructor),
and leaves all devices and instances, hence every traversal, as they were. -/
theorem CreateSoundDeviceInstance_out_of_memory (env : Env) (fuel : Nat) (s : State)
    (D slot : Nat) (hD : D ≠ 0) (hslot : slot ≠ 0) (halloc : env.AllocateMemoryFor s = 0) :
    ∃ s1, CreateSoundDeviceInstance env fuel s D slot = .ok ((MMSYSERR_NOMEM, none), s1) ∧
      s1.Devices = s.Devices ∧ s1.Instances = s.Instances ∧
      s1.Trace = s.Trace ++ [.AllocateMemoryFor 0] ∧
      ∀ L, InstanceList s D L → InstanceList s1 D L := by
  refine ⟨record s (.AllocateMemoryFor 0), ?_, rfl, rfl, rfl, fun L h => h⟩
  simp [CreateSoundDeviceInstance, hD, hslot, bind, Except.bind,
    AllocateSoundDeviceInstance_null env s halloc, pure, Except.pure]

/-- Witness for C10: with an allocator that returns `NULL`, create on a device
holding `[1, 2]` returns `MMSYSERR_NOMEM` and the list is still `[1, 2]`. -/
theorem CreateSoundDeviceInstance_out_of_memory_witness :
    ∃ s1, CreateSoundDeviceInstance (constEnv 0 0) 2
        (deviceState WAVE_OUT_DEVICE_TYPE (constTable 0 0) 100 [1, 2]) 100 1 =
        .ok ((MMSYSERR_NOMEM, none), s1) ∧
      s1.Devices = (deviceState WAVE_OUT_DEVICE_TYPE (constTable 0 0) 100 [1, 2]).Devices ∧
      s1.Instances = (deviceState WAVE_OUT_DEVICE_TYPE (constTable 0 0) 100 [1, 2]).Instances ∧
      s1.Trace = (deviceState WAVE_OUT_DEVICE_TYPE (constTable 0 0) 100 [1, 2]).Trace ++
        [.AllocateMemoryFor 0] ∧
      ∀ L, InstanceList (deviceState WAVE_OUT_DEVICE_TYPE (constTable 0 0) 100 [1, 2]) 100 L →
        InstanceList s1 100 L :=
  CreateSoundDeviceInstance_out_of_memory (constEnv 0 0) 2
    (deviceState WAVE_OUT_DEVICE_TYPE (constTable 0 0) 100 [1, 2]) 100 1
    (by decide) (by decide) rfl

/-! ## Detach of the head -/

/-- C13 (detach of the head clears the head): for an instance `x` whose owning
device `D` has `FirstInstance = x`, `UnlistSoundDeviceInstance` returns, with any
fuel, the state in which `FirstInstance` of `D` is `NULL`, whatever the `Next` link
of `x` is; the instances, hence every `Next` link, are left as they were. -/
theorem UnlistSoundDeviceInstance_head_clears (fuel : Nat) (s : State) (x D : Nat)
    (ix : SOUND_DEVICE_INSTANCE) (d : SOUND_DEVICE)
    (hx0 : x ≠ 0) (hix : s.Instances x = some ix) (hown : ix.Device = D) (hD : D ≠ 0)
    (hd : s.Devices D = some d) (hfirst : d.FirstInstance = x) :
    ∃ s1, UnlistSoundDeviceInstance fuel s x = .ok s1 ∧
      s1.Devices D = some { d with FirstInstance := 0 } ∧
      (∀ E, E ≠ D → s1.Devices E = s.Devices E) ∧
      s1.Instances = s.Instances ∧ s1.Trace = s.Trace := by
  subst hown
  refine ⟨⟨Function.update s.Devices ix.Device (some { d with FirstInstance := 0 }),
    s.Instances, s.Trace⟩, ?_, by simp, ?_, rfl, rfl⟩
  · simp only [UnlistSoundDeviceInstance, ASSERT, bind, Except.bind, loadInstance_ok hx0 hix,
      loadDevice_ok hD hd]
    simp [hD, hx0, hfirst, setFirstInstance_ok 0 hD hd]
  · intro E hE
    simp [Function.update, hE]

/-- Witness for C13: detaching the head `1` of `[1, 2]` leaves `FirstInstance` at
`NULL` although the `Next` link of `1` is `2`. -/
theorem UnlistSoundDeviceInstance_head_clears_witness :
    ∃ s1, UnlistSoundDeviceInstance 0
        (deviceState WAVE_OUT_DEVICE_TYPE (constTable 0 0) 100 [1, 2]) 1 = .ok s1 ∧
      s1.Devices 100 = some
        { (⟨WAVE_OUT_DEVICE_TYPE, 1, constTable 0 0⟩ : SOUND_DEVICE) with FirstInstance := 0 } ∧
      (∀ E, E ≠ 100 →
        s1.Devices E = (deviceState WAVE_OUT_DEVICE_TYPE (constTable 0 0) 100 [1, 2]).Devices E) ∧
      s1.Instances = (deviceState WAVE_OUT_DEVICE_TYPE (constTable 0 0) 100 [1, 2]).Instances ∧
      s1.Trace = (deviceState WAVE_OUT_DEVICE_TYPE (constTable 0 0) 100 [1, 2]).Trace :=
  UnlistSoundDeviceInstance_head_clears 0
    (deviceState WAVE_OUT_DEVICE_TYPE (constTable 0 0) 100 [1, 2]) 1 100 ⟨2, 100⟩
    ⟨WAVE_OUT_DEVICE_TYPE, 1, constTable 0 0⟩ (by decide) rfl rfl (by decide) rfl rfl

/-! ## Sequences of creates and destroys -/

/-- C11 (code behaviour at the failing input): on an empty MidiOut device, two
successful creates hand out the instances `1` and `3`; after destroying `1`, the
head, `FirstInstance` is `NULL` although instance `3` is live: created, never
destroyed, still allocated and owned by the device. -/
theorem head_empty_with_live_instance :
    ∃ s1 s2 s3,
      CreateSoundDeviceInstance countingEnv 5
        (deviceState MIDI_OUT_DEVICE_TYPE (constTable 0 0) 100 []) 100 1 =
        .ok ((MMSYSERR_NOERROR, some 1), s1) ∧
      CreateSoundDeviceInstance countingEnv 5 s1 100 1 =
        .ok ((MMSYSERR_NOERROR, some 3), s2) ∧
      InstanceList s2 100 [1, 3] ∧
      DestroySoundDeviceInstance 5 s2 1 = .ok (MMSYSERR_NOERROR, s3) ∧
      (s3.Devices 100).map (·.FirstInstance) = some 0 ∧
      s3.Instances 3 = some ⟨0, 100⟩ :=
  ⟨_, _, _, rfl, rfl, by decide, rfl, by decide, by decide⟩

/-- C12 (code behaviour at the failing input): on an empty MidiOut device, after
two successful creates (instances `1` and `3`) and the destroy of `1`, destroying
the live instance `3` does not return: the predecessor walk starts at the `NULL`
head and reads through it. -/
theorem destroy_live_instance_faults :
    ∃ s1 s2 s3,
      CreateSoundDeviceInstance countingEnv 5
        (deviceState MIDI_OUT_DEVICE_TYPE (constTable 0 0) 100 []) 100 1 =
        .ok ((MMSYSERR_NOERROR, some 1), s1) ∧
      CreateSoundDeviceInstance countingEnv 5 s1 100 1 =
        .ok ((MMSYSERR_NOERROR, some 3), s2) ∧
      DestroySoundDeviceInstance 5 s2 1 = .ok (MMSYSERR_NOERROR, s3) ∧
      s3.Instances 3 = some ⟨0, 100⟩ ∧
      DestroySoundDeviceInstance 5 s3 3 = .error .AccessViolation :=
  ⟨_, _, _, rfl, rfl, rfl, by decide, rfl⟩

/-! ## Detach of an instance that is not in the list -/

/-- The predecessor walk on a non-empty chain that does not hold `x` ends in the
assertion after the last instance. -/
theorem UnlistSoundDeviceInstance_loop_asserts (s : State) (x : Nat) (hx0 : x ≠ 0) :
    ∀ (L : List Nat) (cur fuel : Nat), IsList s.Instances cur L → L ≠ [] → x ∉ L →
      L.length ≤ fuel →
      UnlistSoundDeviceInstance_loop fuel s cur x = .error .AssertFailed
  | [], _, _, _, hne, _, _ => absurd rfl hne
  | a :: L, cur, 0, _, _, _, hfuel => by simp at hfuel
  | a :: L, cur, fuel + 1, hl, _, hxL, hfuel => by
    obtain ⟨hp, ha, i, hi, hrest⟩ := IsList_cons.mp hl
    subst hp
    have hxL2 : x ∉ L := fun e => hxL (by simp [e])
    cases L with
    | nil =>
      have hn : i.Next = 0 := IsList_nil.mp hrest
      have hnx : i.Next ≠ x := fun e => hx0 (e.symm.trans hn)
      simp [UnlistSoundDeviceInstance_loop, loadInstance_ok ha hi, ASSERT, hn, Ne.symm hx0]
    | cons b L =>
      obtain ⟨hb, hb0, _⟩ := IsList_cons.mp hrest
      have hnx : i.Next ≠ x := fun e => hxL2 (by simp [← e, hb])
      have hn0 : i.Next ≠ 0 := hb ▸ hb0
      have hlen : (b :: L).length ≤ fuel := by simp at hfuel ⊢; omega
      have ih := UnlistSoundDeviceInstance_loop_asserts s x hx0 (b :: L) i.Next fuel hrest
        (by simp) hxL2 hlen
      simp [UnlistSoundDeviceInstance_loop, loadInstance_ok ha hi, hnx, ASSERT, hn0, ih]

/-- Detach of an instance that names `D` as its device but is not in the non-empty
traversal of `D`: the walk runs off the end and the assertion fails. -/
theorem UnlistSoundDeviceInstance_non_member_asserts (fuel : Nat) (s : State) (x D : Nat)
    (ix : SOUND_DEVICE_INSTANCE) (d : SOUND_DEVICE) (L : List Nat)
    (hx0 : x ≠ 0) (hix : s.Instances x = some ix) (hown : ix.Device = D) (hD : D ≠ 0)
    (hd : s.Devices D = some d) (hL : IsList s.Instances d.FirstInstance L) (hne : L ≠ [])
    (hxL : x ∉ L) (hfuel : L.length ≤ fuel) :
    UnlistSoundDeviceInstance fuel s x = .error .AssertFailed := by
  subst hown
  have hf : d.FirstInstance ≠ x := by
    intro e
    cases L with
    | nil => exact hne rfl
    | cons a L =>
      obtain ⟨hp, _⟩ := IsList_cons.mp hL
      exact hxL (by simp [← hp, e])
  have hloop := UnlistSoundDeviceInstance_loop_asserts s x hx0 L d.FirstInstance fuel hL hne
    hxL hfuel
  simp only [UnlistSoundDeviceInstance, ASSERT, bind, Except.bind, loadInstance_ok hx0 hix,
    loadDevice_ok hD hd]
  simp [hD, hx0, hf, hloop]

/-- Detach of an instance that names `D` as its device while the list of `D` is
empty: the walk reads `CurrentInstance->Next` through the `NULL` head, before any
assertion. -/
theorem UnlistSoundDeviceInstance_empty_list_faults (fuel : Nat) (s : State) (x D : Nat)
    (ix : SOUND_DEVICE_INSTANCE) (d : SOUND_DEVICE)
    (hx0 : x ≠ 0) (hix : s.Instances x = some ix) (hown : ix.Device = D) (hD : D ≠ 0)
    (hd : s.Devices D = some d) (hempty : d.FirstInstance = 0) :
    UnlistSoundDeviceInstance (fuel + 1) s x = .error .AccessViolation := by
  subst hown
  simp only [UnlistSoundDeviceInstance, ASSERT, bind, Except.bind, loadInstance_ok hx0 hix,
    loadDevice_ok hD hd]
  simp [hD, hx0, hempty, Ne.symm hx0, UnlistSoundDeviceInstance_loop, loadInstance]

/-- C15 (code behaviour at the failing input): instance `7` names the device at
`100` as its device, the list of that device is empty and well-formed, and `7`
is not in it; `UnlistSoundDeviceInstance` does not end in an assertion but in a
read through `NULL`.  With the non-empty list `[1, 2]` the same call does end in
the assertion. -/
theorem UnlistSoundDeviceInstance_stray_on_empty_list :
    InstanceList (strayState MIDI_IN_DEVICE_TYPE (constTable 0 0) 100 [] 7) 100 [] ∧
    OwnedBy (strayState MIDI_IN_DEVICE_TYPE (constTable 0 0) 100 [] 7) 7 100 ∧
    UnlistSoundDeviceInstance 5 (strayState MIDI_IN_DEVICE_TYPE (constTable 0 0) 100 [] 7) 7 =
      .error .AccessViolation ∧
    UnlistSoundDeviceInstance 5 (strayState MIDI_IN_DEVICE_TYPE (constTable 0 0) 100 [1, 2] 7) 7 =
      .error .AssertFailed :=
  ⟨by decide, by decide, rfl, rfl⟩

/-! ## The wave initializer -/

/-- Attach is: set the `Device` field, run the type dispatch on the state so
obtained, then link the instance behind the list. -/
theorem ListSoundDeviceInstance_steps (env : Env) (fuel : Nat) (s : State) (D x : Nat)
    (d : SOUND_DEVICE) (hD : D ≠ 0) (hx0 : x ≠ 0) (hix : s.Instances x = some ⟨0, 0⟩)
    (hd : s.Devices D = some d) :
    setDevice s x D = .ok { s with Instances := Function.update s.Instances x (some ⟨0, D⟩) } ∧
    ListSoundDeviceInstance env fuel s D x =
      (ListSoundDeviceInstance_dispatch env
        { s with Instances := Function.update s.Instances x (some ⟨0, D⟩) } d.DeviceType x).bind
        (fun s2 =>
          if d.FirstInstance = 0 then setFirstInstance s2 D x
          else ListSoundDeviceInstance_loop fuel s2 d.FirstInstance x) := by
  refine ⟨setDevice_ok D hx0 hix, ?_⟩
  simp only [ListSoundDeviceInstance, ASSERT, bind, Except.bind, loadInstance_ok hx0 hix,
    setDevice_ok D hx0 hix]
  simp [hD, hx0, loadDevice, hd]

theorem ListSoundDeviceInstance_dispatch_wave_fails (env : Env) (s : State) (t x : Nat)
    (ht : IS_WAVE_DEVICE_TYPE t = true) (hw : env.InitWaveStreamData x ≠ MMSYSERR_NOERROR) :
    ListSoundDeviceInstance_dispatch env s t x = .error .AssertFailed := by
  simp [ListSoundDeviceInstance_dispatch, ht, ASSERT, hw]

/-- Create on a wave device whose initializer fails ends in the assertion. -/
theorem CreateSoundDeviceInstance_wave_init_fails (env : Env) (fuel : Nat) (s : State)
    (D slot x : Nat) (d : SOUND_DEVICE)
    (hD : D ≠ 0) (hslot : slot ≠ 0) (hd : s.Devices D = some d)
    (halloc : env.AllocateMemoryFor s = x) (hx0 : x ≠ 0)
    (ht : IS_WAVE_DEVICE_TYPE d.DeviceType = true)
    (hw : env.InitWaveStreamData x ≠ MMSYSERR_NOERROR) :
    CreateSoundDeviceInstance env fuel s D slot = .error .AssertFailed := by
  have hsteps := (ListSoundDeviceInstance_steps env fuel
    { s with Instances := Function.update s.Instances x (some ⟨0, 0⟩),
             Trace := s.Trace ++ [.AllocateMemoryFor x] }
    D x d hD hx0 (by simp) hd).2
  rw [ListSoundDeviceInstance_dispatch_wave_fails env _ _ x ht hw] at hsteps
  simp [CreateSoundDeviceInstance, hD, hslot, bind, Except.bind,
    AllocateSoundDeviceInstance_ok env s x halloc hx0, hx0, hsteps]

/-- C17 (wave pre-initialization order): in `CreateSoundDeviceInstance` on a device
`D` with well-formed traversal `L` and new instance `x`: on a wave device the
initializer is called exactly once, on `x`, after the allocator call and before
the constructor call, and the instance it is handed has its `Device` field set to
`D` while its `Next` link is still `NULL` (the owner is written, the instance not
yet linked); a result other than `MMSYSERR_NOERROR` ends the run in a failed
assertion, not in a returned code.  On a MIDI, mixer or aux device attach returns
without recording any call, and the calls of create are the allocator and the
constructor only (and the release when the constructor fails). -/
theorem CreateSoundDeviceInstance_wave_preinit (env : Env) (fuel : Nat) (s : State)
    (D slot x : Nat) (d : SOUND_DEVICE) (L : List Nat)
    (hD : D ≠ 0) (hslot : slot ≠ 0) (hd : s.Devices D = some d)
    (hL : InstanceList s D L)
    (halloc : env.AllocateMemoryFor s = x) (hx0 : x ≠ 0) (hxL : x ∉ L)
    (hfuel : L.length ≤ fuel) :
    (IS_WAVE_DEVICE_TYPE d.DeviceType = true →
      env.InitWaveStreamData x = MMSYSERR_NOERROR →
      ∃ r s1 tail, CreateSoundDeviceInstance env fuel s D slot = .ok (r, s1) ∧
        (tail = [] ∨ tail = [.FreeMemory x]) ∧
        s1.Trace = s.Trace ++
          [.AllocateMemoryFor x, .InitWaveStreamData x (some ⟨0, D⟩), .Constructor x] ++
          tail) ∧
    (IS_WAVE_DEVICE_TYPE d.DeviceType = true →
      env.InitWaveStreamData x ≠ MMSYSERR_NOERROR →
      CreateSoundDeviceInstance env fuel s D slot = .error .AssertFailed) ∧
    (IS_WAVE_DEVICE_TYPE d.DeviceType = false →
      (IS_MIDI_DEVICE_TYPE d.DeviceType = true ∨ IS_MIXER_DEVICE_TYPE d.DeviceType = true ∨
        IS_AUX_DEVICE_TYPE d.DeviceType = true) →
      ∃ sA sB r s1 tail, AllocateSoundDeviceInstance env s = .ok (x, sA) ∧
        ListSoundDeviceInstance env fuel sA D x = .ok sB ∧ sB.Trace = sA.Trace ∧
        CreateSoundDeviceInstance env fuel s D slot = .ok (r, s1) ∧
        (tail = [] ∨ tail = [.FreeMemory x]) ∧
        s1.Trace = s.Trace ++ [.AllocateMemoryFor x, .Constructor x] ++ tail) := by
  simp only [InstanceList, hd] at hL
  refine ⟨?_, ?_, ?_⟩
  · intro ht hw
    by_cases hc : d.Functions.Constructor x = MMSYSERR_NOERROR
    · obtain ⟨s1, _, hrun, _, _, _, _, _, _, _, htrace⟩ :=
        CreateSoundDeviceInstance_ok_spec env fuel s D slot x d L hD hslot hd hL
          (Or.inl ht) halloc hx0 hxL (fun _ => hw) hc hfuel
      exact ⟨_, s1, [], hrun, Or.inl rfl, by simp [htrace, ht]⟩
    · obtain ⟨s1, _, hrun, _, _, _, _, _, _, _, htrace⟩ :=
        CreateSoundDeviceInstance_fail_spec env fuel s D slot x _ d L hD hslot hd hL
          (Or.inl ht) halloc hx0 hxL (fun _ => hw) rfl hc hfuel
      exact ⟨_, s1, [.FreeMemory x], hrun, Or.inr rfl, by simp [htrace, ht]⟩
  · intro ht hw
    exact CreateSoundDeviceInstance_wave_init_fails env fuel s D slot x d hD hslot hd halloc
      hx0 ht hw
  · intro ht hk
    have hk2 : KnownDeviceType d.DeviceType := Or.inr hk
    have hw : IS_WAVE_DEVICE_TYPE d.DeviceType = true →
        env.InitWaveStreamData x = MMSYSERR_NOERROR := fun h => by simp [ht] at h
    obtain ⟨sA, sB, _, hal, hlist, _, _, _, _, _, _, _, htr⟩ :=
      CreateSoundDeviceInstance_listed env fuel s D x d L hD hd hL hk2 halloc hx0 hxL hw hfuel
    have hsA : sA.Trace = s.Trace ++ [.AllocateMemoryFor x] := by
      have := AllocateSoundDeviceInstance_ok env s x halloc hx0
      rw [hal] at this
      injection this with h
      injection h with _ h2
      rw [h2]
    have hsB : sB.Trace = sA.Trace := by simp [htr, ht, hsA]
    by_cases hc : d.Functions.Constructor x = MMSYSERR_NOERROR
    · obtain ⟨s1, _, hrun, _, _, _, _, _, _, _, htrace⟩ :=
        CreateSoundDeviceInstance_ok_spec env fuel s D slot x d L hD hslot hd hL
          hk2 halloc hx0 hxL hw hc hfuel
      exact ⟨sA, sB, _, s1, [], hal, hlist, hsB, hrun, Or.inl rfl, by simp [htrace, ht]⟩
    · obtain ⟨s1, _, hrun, _, _, _, _, _, _, _, htrace⟩ :=
        CreateSoundDeviceInstance_fail_spec env fuel s D slot x _ d L hD hslot hd hL
          hk2 halloc hx0 hxL hw rfl hc hfuel
      exact ⟨sA, sB, _, s1, [.FreeMemory x], hal, hlist, hsB, hrun, Or.inr rfl,
        by simp [htrace, ht]⟩

/-- Witness for C17: on a WaveOut device holding `[1, 2]`, create with the new
instance `3` records the allocator, the initializer on `3` (which finds the
`Device` field at `100` and the `Next` link at `NULL`) and the constructor, in
this order. -/
theorem CreateSoundDeviceInstance_wave_preinit_witness :
    ∃ r s1 tail, CreateSoundDeviceInstance (constEnv 3 0) 2
        (deviceState WAVE_OUT_DEVICE_TYPE (constTable 0 0) 100 [1, 2]) 100 1 = .ok (r, s1) ∧
      (tail = [] ∨ tail = [.FreeMemory 3]) ∧
      s1.Trace = (deviceState WAVE_OUT_DEVICE_TYPE (constTable 0 0) 100 [1, 2]).Trace ++
        [.AllocateMemoryFor 3, .InitWaveStreamData 3 (some ⟨0, 100⟩), .Constructor 3] ++ tail :=
  (CreateSoundDeviceInstance_wave_preinit (constEnv 3 0) 2
    (deviceState WAVE_OUT_DEVICE_TYPE (constTable 0 0) 100 [1, 2]) 100 1 3
    ⟨WAVE_OUT_DEVICE_TYPE, 1, constTable 0 0⟩ [1, 2]
    (by decide) (by decide) rfl (by decide) rfl (by decide) (by decide) (by decide)).1
    rfl rfl

/-! ## More facts about list traversal -/

/-- A chain only depends on the instances it visits. -/
theorem IsList.congr {h h1 : Nat → Option SOUND_DEVICE_INSTANCE} :
    ∀ {L : List Nat} {p : Nat}, IsList h p L → (∀ y ∈ L, h1 y = h y) → IsList h1 p L
  | [], _, hl, _ => by simpa [IsList] using hl
  | a :: L, p, hl, hsame => by
    obtain ⟨hp, ha, i, hi, hrest⟩ := IsList_cons.mp hl
    exact IsList_cons.mpr ⟨hp, ha, i, (hsame a (by simp)).trans hi,
      hrest.congr (fun y hy => hsame y (by simp [hy]))⟩

/-- A chain that avoids `q` was a chain before `q` was written. -/
theorem IsList.of_update_of_not_mem {h : Nat → Option SOUND_DEVICE_INSTANCE} {q : Nat}
    {v : Option SOUND_DEVICE_INSTANCE} {L : List Nat} {p : Nat}
    (hl : IsList (Function.update h q v) p L) (hq : q ∉ L) : IsList h p L := by
  refine hl.congr (fun y hy => ?_)
  have hyq : y ≠ q := fun e => hq (e ▸ hy)
  simp [Function.update, hyq]

/-- Writing the `Device` field of an instance back and forth: a chain after the
write was a chain before it. -/
theorem IsList.of_update_device {h : Nat → Option SOUND_DEVICE_INSTANCE} {q : Nat}
    {iq : SOUND_DEVICE_INSTANCE} (hq : h q = some iq) (v : Nat) {L : List Nat} {p : Nat}
    (hl : IsList (Function.update h q (some { iq with Device := v })) p L) : IsList h p L := by
  have h1 := @IsList.update_device (Function.update h q (some { iq with Device := v })) q
    { iq with Device := v } (by simp) iq.Device L p hl
  have h2 : Function.update (Function.update h q (some { iq with Device := v })) q
      (some { ({ iq with Device := v } : SOUND_DEVICE_INSTANCE) with Device := iq.Device }) = h := by
    rw [Function.update_idem]
    exact Function.update_eq_self_iff.mpr hq.symm
  rw [h2] at h1
  exact h1

/-- The tail walk of `ListSoundDeviceInstance` with the instance it stops at: the
last one of the chain, whose `Next` link was `NULL`. -/
theorem ListSoundDeviceInstance_loop_exact (s : State) (x : Nat) :
    ∀ (L : List Nat) (cur fuel : Nat), IsList s.Instances cur L → L ≠ [] →
      L.length ≤ fuel →
      ∃ t it, t ∈ L ∧ t ≠ 0 ∧ s.Instances t = some it ∧ it.Next = 0 ∧
        ListSoundDeviceInstance_loop fuel s cur x =
          .ok { s with Instances := Function.update s.Instances t (some { it with Next := x }) }
  | [], _, _, _, hne, _ => absurd rfl hne
  | a :: L, cur, 0, _, _, hfuel => by simp at hfuel
  | a :: L, cur, fuel + 1, hl, _, hfuel => by
    obtain ⟨hp, ha, i, hi, hrest⟩ := IsList_cons.mp hl
    subst hp
    by_cases hn : i.Next = 0
    · refine ⟨cur, i, by simp, ha, hi, hn, ?_⟩
      simp [ListSoundDeviceInstance_loop, ha, loadInstance_ok ha hi, hn, setNext_ok x ha hi]
    · have hLne : L ≠ [] := by
        rintro rfl
        exact hn (IsList_nil.mp hrest)
      have hlen : L.length ≤ fuel := by simp at hfuel; omega
      obtain ⟨t, it, htL, ht0, hit, hitn, hrun⟩ :=
        ListSoundDeviceInstance_loop_exact s x L i.Next fuel hrest hLne hlen
      refine ⟨t, it, by simp [htL], ht0, hit, hitn, ?_⟩
      simp [ListSoundDeviceInstance_loop, ha, loadInstance_ok ha hi, hn, hrun]

/-- The predecessor walk of `UnlistSoundDeviceInstance` with the instance it stops
at: one of the chain whose `Next` link is `x`. -/
theorem UnlistSoundDeviceInstance_loop_exact (s : State) (x : Nat) :
    ∀ (L : List Nat) (cur fuel : Nat), IsList s.Instances cur L → cur ≠ x → x ∈ L →
      L.length ≤ fuel + 1 →
      ∃ pred ipred, pred ∈ L ∧ pred ≠ x ∧ pred ≠ 0 ∧ s.Instances pred = some ipred ∧
        ipred.Next = x ∧ UnlistSoundDeviceInstance_loop fuel s cur x = .ok pred
  | [], _, _, _, _, hx, _ => by simp at hx
  | [a], cur, _, hl, hne, hx, _ => by
    obtain ⟨hp, _⟩ := IsList_cons.mp hl
    simp at hx
    exact absurd (hp.trans hx.symm) hne
  | a :: b :: L, cur, 0, _, _, _, hfuel => by simp at hfuel
  | a :: b :: L, cur, fuel + 1, hl, hne, hx, hfuel => by
    obtain ⟨hp, ha, i, hi, hrest⟩ := IsList_cons.mp hl
    subst hp
    obtain ⟨hb, hb0, _⟩ := IsList_cons.mp hrest
    have hxL : x ∈ b :: L := by
      rcases List.mem_cons.mp hx with e | e
      · exact absurd e.symm hne
      · exact e
    by_cases hn : i.Next = x
    · refine ⟨cur, i, by simp, hne, ha, hi, hn, ?_⟩
      simp [UnlistSoundDeviceInstance_loop, loadInstance_ok ha hi, hn]
    · have hbx : b ≠ x := fun e => hn (hb ▸ e)
      have hi0 : i.Next ≠ 0 := hb ▸ hb0
      have hlen : (b :: L).length ≤ fuel + 1 := by simp at hfuel ⊢; omega
      obtain ⟨pred, ipred, hpm, hpx, hp0, hip, hipn, hrun⟩ :=
        UnlistSoundDeviceInstance_loop_exact s x (b :: L) i.Next fuel hrest (hb ▸ hbx) hxL hlen
      refine ⟨pred, ipred, by simp [List.mem_cons.mp hpm], hpx, hp0, hip, hipn, ?_⟩
      simp [UnlistSoundDeviceInstance_loop, loadInstance_ok ha hi, hn, ASSERT, hi0, hrun]

/-! ## The states attach and detach return -/

/-- Attach of a zeroed instance `x` behind the traversal `L` of `D`: the state it
returns.  On an empty list `FirstInstance` becomes `x`; otherwise the `Next` link
of the last instance becomes `x`. -/
theorem ListSoundDeviceInstance_exact (env : Env) (fuel : Nat) (s : State) (D x : Nat)
    (d : SOUND_DEVICE) (L : List Nat)
    (hD : D ≠ 0) (hx0 : x ≠ 0) (hix : s.Instances x = some ⟨0, 0⟩)
    (hd : s.Devices D = some d) (hk : KnownDeviceType d.DeviceType)
    (hw : IS_WAVE_DEVICE_TYPE d.DeviceType = true →
      env.InitWaveStreamData x = MMSYSERR_NOERROR)
    (hL : IsList s.Instances d.FirstInstance L) (hxL : x ∉ L) (hfuel : L.length ≤ fuel) :
    (L = [] → ListSoundDeviceInstance env fuel s D x =
      .ok ⟨Function.update s.Devices D (some { d with FirstInstance := x }),
        Function.update s.Instances x (some ⟨0, D⟩),
        s.Trace ++ (if IS_WAVE_DEVICE_TYPE d.DeviceType = true then
          [.InitWaveStreamData x (some ⟨0, D⟩)] else [])⟩) ∧
    (L ≠ [] → ∃ t it, t ∈ L ∧ t ≠ x ∧ t ≠ 0 ∧ s.Instances t = some it ∧ it.Next = 0 ∧
      ListSoundDeviceInstance env fuel s D x =
        .ok ⟨s.Devices,
          Function.update (Function.update s.Instances x (some ⟨0, D⟩)) t
            (some { it with Next := x }),
          s.Trace ++ (if IS_WAVE_DEVICE_TYPE d.DeviceType = true then
            [.InitWaveStreamData x (some ⟨0, D⟩)] else [])⟩) := by
  have hsteps := (ListSoundDeviceInstance_steps env fuel s D x d hD hx0 hix hd).2
  rw [ListSoundDeviceInstance_dispatch_ok env _ _ x hk hw] at hsteps
  simp only [Except.bind, Function.update_same] at hsteps
  constructor
  · intro hnil
    subst hnil
    have hf : d.FirstInstance = 0 := IsList_nil.mp hL
    rw [hsteps, if_pos hf, setFirstInstance_ok x hD (by exact hd)]
  · intro hne
    have hf : d.FirstInstance ≠ 0 := by
      intro e
      cases L with
      | nil => exact hne rfl
      | cons a L =>
        obtain ⟨hp, ha, _⟩ := IsList_cons.mp hL
        exact ha (hp ▸ e)
    have hL1 : IsList (Function.update s.Instances x (some ⟨0, D⟩)) d.FirstInstance L :=
      hL.update_of_not_mem _ hxL
    obtain ⟨t, it, htL, ht0, hit, hitn, hrun⟩ :=
      ListSoundDeviceInstance_loop_exact
        ⟨s.Devices, Function.update s.Instances x (some ⟨0, D⟩),
          s.Trace ++ (if IS_WAVE_DEVICE_TYPE d.DeviceType = true then
            [.InitWaveStreamData x (some ⟨0, D⟩)] else [])⟩
        x L d.FirstInstance fuel hL1 hne hfuel
    have htx : t ≠ x := fun e => hxL (e ▸ htL)
    have hit2 : s.Instances t = some it := by
      simpa [Function.update, htx] using hit
    exact ⟨t, it, htL, htx, ht0, hit2, hitn, by rw [hsteps, if_neg hf, hrun]⟩

/-- Detach of an instance `x` that is in the traversal `L` of its device but is
not the head: the state it returns.  The `Next` link of the instance in front of
`x` becomes the `Next` link of `x`; nothing else changes. -/
theorem UnlistSoundDeviceInstance_exact (fuel : Nat) (s : State) (x D : Nat)
    (ix : SOUND_DEVICE_INSTANCE) (d : SOUND_DEVICE) (L : List Nat)
    (hx0 : x ≠ 0) (hix : s.Instances x = some ix) (hown : ix.Device = D) (hD : D ≠ 0)
    (hd : s.Devices D = some d) (hL : IsList s.Instances d.FirstInstance L) (hxL : x ∈ L)
    (hf : d.FirstInstance ≠ x) (hfuel : L.length ≤ fuel + 1) :
    ∃ pred ipred, pred ∈ L ∧ pred ≠ x ∧ pred ≠ 0 ∧ s.Instances pred = some ipred ∧
      ipred.Next = x ∧
      UnlistSoundDeviceInstance fuel s x =
        .ok ⟨s.Devices,
          Function.update s.Instances pred (some { ipred with Next := ix.Next }), s.Trace⟩ := by
  subst hown
  obtain ⟨pred, ipred, hpm, hpx, hp0, hip, hipn, hloop⟩ :=
    UnlistSoundDeviceInstance_loop_exact s x L d.FirstInstance fuel hL hf hxL hfuel
  refine ⟨pred, ipred, hpm, hpx, hp0, hip, hipn, ?_⟩
  simp only [UnlistSoundDeviceInstance, ASSERT, bind, Except.bind, loadInstance_ok hx0 hix,
    loadDevice_ok hD hd]
  simp [hD, hx0, hf, hloop, setNext_ok ix.Next hp0 hip]

/-! ## How the public routines are put together -/

theorem CreateSoundDeviceInstance_run_ok (env : Env) (fuel : Nat) (s sA s2 : State)
    (D slot x : Nat) (d2 : SOUND_DEVICE) (hD : D ≠ 0) (hslot : slot ≠ 0) (hx0 : x ≠ 0)
    (hal : AllocateSoundDeviceInstance env s = .ok (x, sA))
    (hlist : ListSoundDeviceInstance env fuel sA D x = .ok s2)
    (hd2 : s2.Devices D = some d2) (hc : d2.Functions.Constructor x = MMSYSERR_NOERROR) :
    CreateSoundDeviceInstance env fuel s D slot =
      .ok ((MMSYSERR_NOERROR, some x), record s2 (.Constructor x)) := by
  simp [CreateSoundDeviceInstance, hD, hslot, bind, Except.bind, hal, hx0, hlist,
    loadDevice_ok hD hd2, hc, pure, Except.pure]

theorem CreateSoundDeviceInstance_run_fail (env : Env) (fuel : Nat) (s sA s2 s4 : State)
    (D slot x : Nat) (d2 : SOUND_DEVICE) (hD : D ≠ 0) (hslot : slot ≠ 0) (hx0 : x ≠ 0)
    (hal : AllocateSoundDeviceInstance env s = .ok (x, sA))
    (hlist : ListSoundDeviceInstance env fuel sA D x = .ok s2)
    (hd2 : s2.Devices D = some d2) (hc : d2.Functions.Constructor x ≠ MMSYSERR_NOERROR)
    (hun : UnlistSoundDeviceInstance fuel (record s2 (.Constructor x)) x = .ok s4) :
    CreateSoundDeviceInstance env fuel s D slot =
      .ok ((d2.Functions.Constructor x, some 0), FreeSoundDeviceInstance s4 x) := by
  simp [CreateSoundDeviceInstance, hD, hslot, bind, Except.bind, hal, hx0, hlist,
    loadDevice_ok hD hd2, hc, hun, pure, Except.pure]

theorem DestroySoundDeviceInstance_run (fuel : Nat) (s s2 : State) (x : Nat)
    (ix : SOUND_DEVICE_INSTANCE) (d : SOUND_DEVICE) (hx0 : x ≠ 0)
    (hix : s.Instances x = some ix) (hD : ix.Device ≠ 0) (hd : s.Devices ix.Device = some d)
    (hun : UnlistSoundDeviceInstance fuel (record s (.Destructor x)) x = .ok s2) :
    DestroySoundDeviceInstance fuel s x =
      .ok (MMSYSERR_NOERROR, FreeSoundDeviceInstance s2 x) := by
  simp [DestroySoundDeviceInstance, hx0, bind, Except.bind, loadInstance_ok hx0 hix,
    loadDevice_ok hD hd, hun, pure, Except.pure]

theorem DestroyAllInstancesOfSoundDevice_run_empty (fuel : Nat) (s : State) (D : Nat)
    (d : SOUND_DEVICE) (hD : D ≠ 0) (hd : s.Devices D = some d) (hf : d.FirstInstance = 0) :
    DestroyAllInstancesOfSoundDevice (fuel + 1) s D = .ok (MMSYSERR_NOERROR, s) := by
  simp [DestroyAllInstancesOfSoundDevice, hD, DestroyAllInstancesOfSoundDevice_loop,
    loadDevice_ok hD hd, hf]

theorem DestroyAllInstancesOfSoundDevice_run_head (fuel : Nat) (s s1 : State) (D : Nat)
    (d d1 : SOUND_DEVICE) (hD : D ≠ 0) (hd : s.Devices D = some d)
    (hf : d.FirstInstance ≠ 0)
    (hrun : DestroySoundDeviceInstance (fuel + 2) s d.FirstInstance =
      .ok (MMSYSERR_NOERROR, s1))
    (hd1 : s1.Devices D = some d1) (hf1 : d1.FirstInstance = 0) :
    DestroyAllInstancesOfSoundDevice (fuel + 2) s D = .ok (MMSYSERR_NOERROR, s1) := by
  simp [DestroyAllInstancesOfSoundDevice, hD, DestroyAllInstancesOfSoundDevice_loop,
    loadDevice_ok hD hd, hf, hrun, loadDevice_ok hD hd1, hf1]

/-! ## Chains before and after one link is written -/

theorem IsList_null {h : Nat → Option SOUND_DEVICE_INSTANCE} {L : List Nat}
    (hl : IsList h 0 L) : L = [] := by
  cases L with
  | nil => rfl
  | cons a L =>
    obtain ⟨hp, ha, _⟩ := IsList_cons.mp hl
    exact absurd hp.symm ha

/-- Linking `x` behind the last instance `t` of some chain: every chain that does
not hold `x` is still a chain, possibly one instance longer. -/
theorem IsList.link_forward {h : Nat → Option SOUND_DEVICE_INSTANCE} {t x : Nat}
    {it ix : SOUND_DEVICE_INSTANCE} (ht : h t = some it) (hitn : it.Next = 0)
    (hx : h x = some ix) (hxn : ix.Next = 0) (hx0 : x ≠ 0) (htx : t ≠ x) :
    ∀ {L : List Nat} {p : Nat}, IsList h p L → x ∉ L →
      ∃ L1, IsList (Function.update h t (some { it with Next := x })) p L1 ∧
        ∀ y ∈ L, y ∈ L1
  | [], p, hl, _ => ⟨[], by simpa [IsList] using hl, fun _ hy => hy⟩
  | a :: L, p, hl, hxL => by
    obtain ⟨hp, ha, i, hi, hrest⟩ := IsList_cons.mp hl
    have hxa : x ≠ a := fun e => hxL (by simp [e])
    have hxL2 : x ∉ L := fun e => hxL (by simp [e])
    by_cases hat : a = t
    · subst hat
      have hii : i = it := Option.some.inj (hi.symm.trans ht)
      subst hii
      have hnil : L = [] := IsList_null (hitn ▸ hrest)
      subst hnil
      refine ⟨[a, x], ?_, fun y hy => by simp at hy; simp [hy]⟩
      refine IsList_cons.mpr ⟨hp, ha, { i with Next := x }, by simp, ?_⟩
      refine IsList_cons.mpr ⟨rfl, hx0, ix, by simp [Function.update, hxa, hx], ?_⟩
      simp [IsList, hxn]
    · obtain ⟨L1, hl1, hsub⟩ := IsList.link_forward ht hitn hx hxn hx0 htx hrest hxL2
      refine ⟨a :: L1, IsList_cons.mpr ⟨hp, ha, i, by simp [Function.update, hat, hi], hl1⟩, ?_⟩
      intro y hy
      rcases List.mem_cons.mp hy with e | e
      · simp [e]
      · simp [hsub y e]

/-- Linking `x` behind the last instance `t` of some chain: every chain afterwards
comes from a chain before, with the same instances apart from `x`. -/
theorem IsList.link_backward {h : Nat → Option SOUND_DEVICE_INSTANCE} {t x : Nat}
    {it ix : SOUND_DEVICE_INSTANCE} (ht : h t = some it) (hitn : it.Next = 0)
    (hx : h x = some ix) (hxn : ix.Next = 0) (htx : t ≠ x) :
    ∀ {L1 : List Nat} {p : Nat},
      IsList (Function.update h t (some { it with Next := x })) p L1 →
      ∃ L, IsList h p L ∧ ∀ y ∈ L1, y ≠ x → y ∈ L
  | [], p, hl => ⟨[], by simpa [IsList] using hl, fun _ hy => by simp at hy⟩
  | a :: L1, p, hl => by
    obtain ⟨hp, ha, i, hi, hrest⟩ := IsList_cons.mp hl
    by_cases hat : a = t
    · subst hat
      have hii : i = { it with Next := x } := by
        have : some ({ it with Next := x } : SOUND_DEVICE_INSTANCE) = some i := by
          simpa using hi
        exact (Option.some.inj this).symm
      subst hii
      have hL1 : ∀ y ∈ L1, y = x := by
        cases L1 with
        | nil => intro y hy; simp at hy
        | cons b L1 =>
          obtain ⟨hb, _, j, hj, hrest2⟩ := IsList_cons.mp hrest
          have hbx : b = x := hb.symm
          subst hbx
          have hjj : j = ix := by
            have : h b = some j := by simpa [Function.update, htx.symm] using hj
            exact Option.some.inj (this.symm.trans hx)
          subst hjj
          have hnil : L1 = [] := IsList_null (hxn ▸ hrest2)
          subst hnil
          intro y hy
          simpa using hy
      refine ⟨[a], IsList_cons.mpr ⟨hp, ha, it, ht, by simp [IsList, hitn]⟩, ?_⟩
      intro y hy hyx
      rcases List.mem_cons.mp hy with e | e
      · simp [e]
      · exact absurd (hL1 y e) hyx
    · have hi2 : h a = some i := by simpa [Function.update, hat] using hi
      obtain ⟨L, hl2, hsub⟩ := IsList.link_backward ht hitn hx hxn htx hrest
      refine ⟨a :: L, IsList_cons.mpr ⟨hp, ha, i, hi2, hl2⟩, ?_⟩
      intro y hy hyx
      rcases List.mem_cons.mp hy with e | e
      · simp [e]
      · simp [hsub y e hyx]

/-- Linking the instance `pred` in front of `x` to the successor of `x`: every
chain is still a chain, with the same instances apart from `x`. -/
theorem IsList.skip_forward {h : Nat → Option SOUND_DEVICE_INSTANCE} {pred x : Nat}
    {ipred ix : SOUND_DEVICE_INSTANCE} (hpred : h pred = some ipred) (hpn : ipred.Next = x)
    (hx : h x = some ix) (hx0 : x ≠ 0) :
    ∀ {L : List Nat} {p : Nat}, IsList h p L →
      ∃ L1, IsList (Function.update h pred (some { ipred with Next := ix.Next })) p L1 ∧
        ∀ y ∈ L, y ≠ x → y ∈ L1
  | [], p, hl => ⟨[], by simpa [IsList] using hl, fun _ hy => by simp at hy⟩
  | a :: L, p, hl => by
    obtain ⟨hp, ha, i, hi, hrest⟩ := IsList_cons.mp hl
    have hnd := hl.nodup
    by_cases hap : a = pred
    · subst hap
      have hii : i = ipred := Option.some.inj (hi.symm.trans hpred)
      subst hii
      rw [hpn] at hrest
      cases L with
      | nil => exact absurd (IsList_nil.mp hrest) hx0
      | cons b L =>
        obtain ⟨hb, _, j, hj, hrest2⟩ := IsList_cons.mp hrest
        have hbx : b = x := hb.symm
        subst hbx
        have hjj : j = ix := Option.some.inj (hj.symm.trans hx)
        subst hjj
        have haL : a ∉ L := fun e => (List.nodup_cons.mp hnd).1 (by simp [e])
        refine ⟨a :: L, IsList_cons.mpr ⟨hp, ha, { i with Next := j.Next }, by simp,
          hrest2.update_of_not_mem _ haL⟩, ?_⟩
        intro y hy hyx
        rcases List.mem_cons.mp hy with e | e
        · simp [e]
        · rcases List.mem_cons.mp e with e2 | e2
          · exact absurd e2 hyx
          · simp [e2]
    · obtain ⟨L1, hl1, hsub⟩ := IsList.skip_forward hpred hpn hx hx0 hrest
      refine ⟨a :: L1, IsList_cons.mpr ⟨hp, ha, i, by simp [Function.update, hap, hi], hl1⟩, ?_⟩
      intro y hy hyx
      rcases List.mem_cons.mp hy with e | e
      · simp [e]
      · simp [hsub y e hyx]

/-- Linking the instance `pred` in front of `x` to the successor of `x`: every
chain afterwards comes from a chain before that holds the same instances. -/
theorem IsList.skip_backward {h : Nat → Option SOUND_DEVICE_INSTANCE} {pred x : Nat}
    {ipred ix : SOUND_DEVICE_INSTANCE} (hpred : h pred = some ipred) (hpn : ipred.Next = x)
    (hx : h x = some ix) (hx0 : x ≠ 0) :
    ∀ {L1 : List Nat} {p : Nat},
      IsList (Function.update h pred (some { ipred with Next := ix.Next })) p L1 →
      ∃ L, IsList h p L ∧ ∀ y ∈ L1, y ∈ L
  | [], p, hl => ⟨[], by simpa [IsList] using hl, fun _ hy => hy⟩
  | a :: L1, p, hl => by
    obtain ⟨hp, ha, i, hi, hrest⟩ := IsList_cons.mp hl
    have hnd := hl.nodup
    by_cases hap : a = pred
    · subst hap
      have hii : i = { ipred with Next := ix.Next } := by
        have : some ({ ipred with Next := ix.Next } : SOUND_DEVICE_INSTANCE) = some i := by
          simpa using hi
        exact (Option.some.inj this).symm
      subst hii
      have haL : a ∉ L1 := (List.nodup_cons.mp hnd).1
      have hrest2 : IsList h ix.Next L1 := hrest.of_update_of_not_mem haL
      refine ⟨a :: x :: L1, IsList_cons.mpr ⟨hp, ha, ipred, hpred, ?_⟩, ?_⟩
      · rw [hpn]
        exact IsList_cons.mpr ⟨rfl, hx0, ix, hx, hrest2⟩
      · intro y hy
        rcases List.mem_cons.mp hy with e | e
        · simp [e]
        · simp [e]
    · have hi2 : h a = some i := by simpa [Function.update, hap] using hi
      obtain ⟨L, hl2, hsub⟩ := IsList.skip_backward hpred hpn hx hx0 hrest
      refine ⟨a :: L, IsList_cons.mpr ⟨hp, ha, i, hi2, hl2⟩, ?_⟩
      intro y hy
      rcases List.mem_cons.mp hy with e | e
      · simp [e]
      · simp [hsub y e]

/-! ## Ownership and listing -/

theorem InstanceList_iff {s : State} {D : Nat} {L : List Nat} :
    InstanceList s D L ↔ ∃ d, s.Devices D = some d ∧ IsList s.Instances d.FirstInstance L := by
  unfold InstanceList
  cases s.Devices D <;> simp

theorem InstanceList_unique {s : State} {D : Nat} {L1 L2 : List Nat}
    (h1 : InstanceList s D L1) (h2 : InstanceList s D L2) : L1 = L2 := by
  obtain ⟨d1, hd1, hl1⟩ := InstanceList_iff.mp h1
  obtain ⟨d2, hd2, hl2⟩ := InstanceList_iff.mp h2
  have : d1 = d2 := Option.some.inj (hd1.symm.trans hd2)
  subst this
  exact hl1.unique hl2

theorem HasOwner_iff {s : State} {y : Nat} :
    HasOwner s y ↔ ∃ i, s.Instances y = some i ∧ i.Device ≠ 0 := by
  unfold HasOwner
  cases s.Instances y <;> simp

theorem HasOwner_congr {s s1 : State} {y : Nat}
    (h : (s1.Instances y).map (·.Device) = (s.Instances y).map (·.Device)) :
    HasOwner s1 y ↔ HasOwner s y := by
  unfold HasOwner
  cases h1 : s1.Instances y <;> cases h2 : s.Instances y <;> simp [h1, h2] at h ⊢
  rw [h]

/-- A freshly allocated instance: its `Device` field is `NULL` and, when every
device has a traversal and `x` was in none of them, it is in no traversal; the
other instances are listed exactly as before. -/
theorem AllocateSoundDeviceInstance_fresh (env : Env) (s : State) (x : Nat)
    (halloc : env.AllocateMemoryFor s = x) (hx0 : x ≠ 0)
    (hwf : ∀ E e, s.Devices E = some e → ∃ L, IsList s.Instances e.FirstInstance L)
    (hun : ¬ Listed s x) :
    ∃ sA, AllocateSoundDeviceInstance env s = .ok (x, sA) ∧
      sA.Instances x = some ⟨0, 0⟩ ∧ ¬ HasOwner sA x ∧ ¬ Listed sA x ∧
      OwnershipMatchesListing sA x ∧
      ∀ y, y ≠ x → OwnershipMatchesListing s y → OwnershipMatchesListing sA y := by
  have hlisted : ∀ y, Listed
      ⟨s.Devices, Function.update s.Instances x (some ⟨0, 0⟩),
        s.Trace ++ [.AllocateMemoryFor x]⟩ y ↔ Listed s y := by
    intro y
    constructor
    · rintro ⟨E, L1, hl, hm⟩
      obtain ⟨e, he, hl1⟩ := InstanceList_iff.mp hl
      obtain ⟨LE, hLE⟩ := hwf E e he
      have hxLE : x ∉ LE := fun hx => hun ⟨E, LE, InstanceList_iff.mpr ⟨e, he, hLE⟩, hx⟩
      have h2 := hLE.update_of_not_mem (some ⟨0, 0⟩) hxLE
      have : L1 = LE := hl1.unique h2
      subst this
      exact ⟨E, L1, InstanceList_iff.mpr ⟨e, he, hLE⟩, hm⟩
    · rintro ⟨E, LE, hl, hm⟩
      obtain ⟨e, he, hLE⟩ := InstanceList_iff.mp hl
      have hxLE : x ∉ LE := fun hx => hun ⟨E, LE, hl, hx⟩
      exact ⟨E, LE, InstanceList_iff.mpr ⟨e, he, hLE.update_of_not_mem _ hxLE⟩, hm⟩
  have hno : ¬ HasOwner
      ⟨s.Devices, Function.update s.Instances x (some ⟨0, 0⟩),
        s.Trace ++ [.AllocateMemoryFor x]⟩ x := by
    simp [HasOwner]
  have hnl := fun hl => hun ((hlisted x).mp hl)
  refine ⟨_, AllocateSoundDeviceInstance_ok env s x halloc hx0, by simp, hno, hnl,
    ⟨fun h => absurd h hno, fun h => absurd h hnl⟩, ?_⟩
  intro y hyx hP
  unfold OwnershipMatchesListing at hP ⊢
  rw [hlisted y, ← hP]
  exact HasOwner_congr (by simp [Function.update, hyx])

/-- Attach keeps the data-model predicate: when it holds at every instance before
a zeroed instance `x` is attached to `D`, it holds at every instance afterwards. -/
theorem ListSoundDeviceInstance_keeps_ownership (env : Env) (fuel : Nat) (s : State)
    (D x : Nat) (d : SOUND_DEVICE) (L : List Nat)
    (hD : D ≠ 0) (hx0 : x ≠ 0) (hix : s.Instances x = some ⟨0, 0⟩)
    (hd : s.Devices D = some d) (hk : KnownDeviceType d.DeviceType)
    (hw : IS_WAVE_DEVICE_TYPE d.DeviceType = true →
      env.InitWaveStreamData x = MMSYSERR_NOERROR)
    (hL : IsList s.Instances d.FirstInstance L) (hfuel : L.length ≤ fuel)
    (hP : ∀ y, OwnershipMatchesListing s y) :
    ∃ s1, ListSoundDeviceInstance env fuel s D x = .ok s1 ∧
      OwnedBy s1 x D ∧ InstanceList s1 D (L ++ [x]) ∧
      ∀ y, OwnershipMatchesListing s1 y := by
  have hun : ¬ Listed s x := by
    intro hl
    have := (hP x).mpr hl
    simp [HasOwner, hix] at this
  have hxL : x ∉ L := fun hx => hun ⟨D, L, InstanceList_iff.mpr ⟨d, hd, hL⟩, hx⟩
  obtain ⟨s1, hrun, hlist, hx1, ⟨d1, hd1, _, _⟩, hother, hdev, _⟩ :=
    ListSoundDeviceInstance_spec env fuel s D x d L hD hx0 hix hd hk hw hL hxL hfuel
  obtain ⟨hex1, hex2⟩ :=
    ListSoundDeviceInstance_exact env fuel s D x d L hD hx0 hix hd hk hw hL hxL hfuel
  refine ⟨s1, hrun, by simp [OwnedBy, hx1], hlist, ?_⟩
  intro y
  by_cases hyx : y = x
  · subst hyx
    exact ⟨fun _ => ⟨D, L ++ [y], hlist, by simp⟩, fun _ => by simp [HasOwner, hx1, hD]⟩
  · have hO : HasOwner s1 y ↔ HasOwner s y := HasOwner_congr (hdev y hyx)
    have hLi : Listed s1 y ↔ Listed s y := by
      by_cases hnil : L = []
      · have hs1 := (hex1 hnil).symm.trans hrun
        injection hs1 with hs1
        subst hs1
        subst hnil
        constructor
        · rintro ⟨E, L1, hl, hm⟩
          by_cases hE : E = D
          · subst hE
            have : L1 = [] ++ [x] := InstanceList_unique hl hlist
            subst this
            simp at hm
            exact absurd hm hyx
          · obtain ⟨e, he, hl1⟩ := InstanceList_iff.mp hl
            have he2 : s.Devices E = some e := by
              simpa [Function.update, hE] using he
            exact ⟨E, L1, InstanceList_iff.mpr ⟨e, he2, IsList.of_update_device hix D hl1⟩, hm⟩
        · rintro ⟨E, LE, hl, hm⟩
          obtain ⟨e, he, hLE⟩ := InstanceList_iff.mp hl
          by_cases hE : E = D
          · subst hE
            have : e = d := Option.some.inj (he.symm.trans hd)
            subst this
            have : LE = [] := hLE.unique hL
            subst this
            simp at hm
          · refine ⟨E, LE, InstanceList_iff.mpr ⟨e, ?_, IsList.update_device hix D hLE⟩, hm⟩
            simpa [Function.update, hE] using he
      · obtain ⟨t, it, htL, htx, ht0, hit, hitn, hrun2⟩ := hex2 hnil
        have hs1 := hrun2.symm.trans hrun
        injection hs1 with hs1
        subst hs1
        have ht1 : Function.update s.Instances x (some ⟨0, D⟩) t = some it := by
          simp [Function.update, htx, hit]
        have hx1b : Function.update s.Instances x (some ⟨0, D⟩) x =
            some (⟨0, D⟩ : SOUND_DEVICE_INSTANCE) := by simp
        constructor
        · rintro ⟨E, L1, hl, hm⟩
          obtain ⟨e, he, hl1⟩ := InstanceList_iff.mp hl
          obtain ⟨L2, hl2, hsub⟩ := IsList.link_backward ht1 hitn hx1b rfl htx hl1
          exact ⟨E, L2, InstanceList_iff.mpr ⟨e, he, IsList.of_update_device hix D hl2⟩,
            hsub y hm hyx⟩
        · rintro ⟨E, LE, hl, hm⟩
          obtain ⟨e, he, hLE⟩ := InstanceList_iff.mp hl
          have hxLE : x ∉ LE := fun hx => hun ⟨E, LE, hl, hx⟩
          obtain ⟨L1, hl1, hsub⟩ :=
            IsList.link_forward ht1 hitn hx1b rfl hx0 htx (IsList.update_device hix D hLE) hxLE
          exact ⟨E, L1, InstanceList_iff.mpr ⟨e, he, hl1⟩, hsub y hm⟩
    unfold OwnershipMatchesListing
    rw [hO, hLi]
    exact hP y

/-- Detach of the head `x` of its device: the state it returns. -/
theorem UnlistSoundDeviceInstance_head_exact (fuel : Nat) (s : State) (x D : Nat)
    (ix : SOUND_DEVICE_INSTANCE) (d : SOUND_DEVICE)
    (hx0 : x ≠ 0) (hix : s.Instances x = some ix) (hown : ix.Device = D) (hD : D ≠ 0)
    (hd : s.Devices D = some d) (hfirst : d.FirstInstance = x) :
    UnlistSoundDeviceInstance fuel s x =
      .ok ⟨Function.update s.Devices D (some { d with FirstInstance := 0 }),
        s.Instances, s.Trace⟩ := by
  subst hown
  simp only [UnlistSoundDeviceInstance, ASSERT, bind, Except.bind, loadInstance_ok hx0 hix,
    loadDevice_ok hD hd]
  simp [hD, hx0, hfirst, setFirstInstance_ok 0 hD hd]

/-- Detach never writes a `Device` field: the instance `x` it removes from the
traversal of `D` still names `D` afterwards.  When `x` was in no other traversal it
is then in none at all, and the data-model predicate fails at `x`.  When `x` was
not the head, the predicate is kept at every other instance. -/
theorem UnlistSoundDeviceInstance_keeps_owner (fuel : Nat) (s : State) (x D : Nat)
    (ix : SOUND_DEVICE_INSTANCE) (d : SOUND_DEVICE) (L : List Nat)
    (hx0 : x ≠ 0) (hix : s.Instances x = some ix) (hown : ix.Device = D) (hD : D ≠ 0)
    (hd : s.Devices D = some d) (hL : IsList s.Instances d.FirstInstance L) (hxL : x ∈ L)
    (hfuel : d.FirstInstance ≠ x → L.length ≤ fuel + 1) :
    ∃ s1, UnlistSoundDeviceInstance fuel s x = .ok s1 ∧
      InstanceList s1 D (detached L x) ∧ x ∉ detached L x ∧
      OwnedBy s1 x D ∧ HasOwner s1 x ∧
      ((∀ E LE, InstanceList s E LE → x ∈ LE → E = D) →
        ¬ Listed s1 x ∧ ¬ OwnershipMatchesListing s1 x) ∧
      (d.FirstInstance ≠ x →
        ∀ y, y ≠ x → OwnershipMatchesListing s y → OwnershipMatchesListing s1 y) := by
  obtain ⟨s1, hrun, hlist, hx1, _, hother, hdev, _⟩ :=
    UnlistSoundDeviceInstance_spec fuel s x D ix d L hx0 hix hown hD hd hL hxL hfuel
  have hnot : x ∉ detached L x := not_mem_detached hL.nodup
  have hown1 : OwnedBy s1 x D := by simp [OwnedBy, hx1, hown]
  have hhas : HasOwner s1 x := by simp [HasOwner, hx1, hown, hD]
  refine ⟨s1, hrun, hlist, hnot, hown1, hhas, ?_, ?_⟩
  · intro hsingle
    have hnl : ¬ Listed s1 x := by
      rintro ⟨E, L1, hl, hm⟩
      by_cases hE : E = D
      · subst hE
        have : L1 = detached L x := InstanceList_unique hl hlist
        subst this
        exact hnot hm
      · obtain ⟨e, he, hl1⟩ := InstanceList_iff.mp hl
        have he2 : s.Devices E = some e := by rw [← hother E hE]; exact he
        by_cases hf : d.FirstInstance = x
        · have hs1 := (UnlistSoundDeviceInstance_head_exact fuel s x D ix d hx0 hix hown hD hd
            hf).symm.trans hrun
          injection hs1 with hs1
          subst hs1
          exact hE (hsingle E L1 (InstanceList_iff.mpr ⟨e, he2, hl1⟩) hm)
        · obtain ⟨pred, ipred, _, _, _, hip, hipn, hrun2⟩ :=
            UnlistSoundDeviceInstance_exact fuel s x D ix d L hx0 hix hown hD hd hL hxL hf
              (hfuel hf)
          have hs1 := hrun2.symm.trans hrun
          injection hs1 with hs1
          subst hs1
          obtain ⟨L2, hl2, hsub⟩ := IsList.skip_backward hip hipn hix hx0 hl1
          exact hE (hsingle E L2 (InstanceList_iff.mpr ⟨e, he2, hl2⟩) (hsub x hm))
    exact ⟨hnl, fun hP => hnl (hP.mp hhas)⟩
  · intro hf y hyx hP
    obtain ⟨pred, ipred, _, _, _, hip, hipn, hrun2⟩ :=
      UnlistSoundDeviceInstance_exact fuel s x D ix d L hx0 hix hown hD hd hL hxL hf (hfuel hf)
    have hO : HasOwner s1 y ↔ HasOwner s y := HasOwner_congr (hdev y)
    have hs1 := hrun2.symm.trans hrun
    injection hs1 with hs1
    subst hs1
    have hLi : Listed
        ⟨s.Devices, Function.update s.Instances pred (some { ipred with Next := ix.Next }),
          s.Trace⟩ y ↔ Listed s y := by
      constructor
      · rintro ⟨E, L1, hl, hm⟩
        obtain ⟨e, he, hl1⟩ := InstanceList_iff.mp hl
        obtain ⟨L2, hl2, hsub⟩ := IsList.skip_backward hip hipn hix hx0 hl1
        exact ⟨E, L2, InstanceList_iff.mpr ⟨e, he, hl2⟩, hsub y hm⟩
      · rintro ⟨E, LE, hl, hm⟩
        obtain ⟨e, he, hLE⟩ := InstanceList_iff.mp hl
        obtain ⟨L1, hl1, hsub⟩ := IsList.skip_forward hip hipn hix hx0 hLE
        exact ⟨E, L1, InstanceList_iff.mpr ⟨e, he, hl1⟩, hsub y hm hyx⟩
    unfold OwnershipMatchesListing at hP ⊢
    rw [hO, hLi]
    exact hP

/-- C14 (counterexample): after detaching `2` from the list `[1, 2, 3]` of the
device at `100`, instance `2` is in no traversal, yet its `Device` field is still
`100`, not `NULL`: the predicate "owner iff listed" fails at `2`. -/
theorem detach_leaves_owner_set :
    ∃ s1, UnlistSoundDeviceInstance 2
        (deviceState WAVE_OUT_DEVICE_TYPE (constTable 0 0) 100 [1, 2, 3]) 2 = .ok s1 ∧
      InstanceList s1 100 [1, 3] ∧ OwnedBy s1 2 100 ∧ HasOwner s1 2 ∧
      ¬ Listed s1 2 ∧ ¬ OwnershipMatchesListing s1 2 := by
  obtain ⟨s1, hrun, hlist, _, hown, hhas, hno, _⟩ :=
    UnlistSoundDeviceInstance_keeps_owner 2
      (deviceState WAVE_OUT_DEVICE_TYPE (constTable 0 0) 100 [1, 2, 3]) 2 100 ⟨3, 100⟩
      ⟨WAVE_OUT_DEVICE_TYPE, 1, constTable 0 0⟩ [1, 2, 3]
      (by decide) rfl rfl (by decide) rfl (by decide) (by decide) (fun _ => by decide)
  have hsingle : ∀ E LE,
      InstanceList (deviceState WAVE_OUT_DEVICE_TYPE (constTable 0 0) 100 [1, 2, 3]) E LE →
      2 ∈ LE → E = 100 := by
    intro E LE hl _
    by_contra hE
    simp [InstanceList, deviceState, hE] at hl
  exact ⟨s1, hrun, hlist, hown, hhas, (hno hsingle).1, (hno hsingle).2⟩

/-- C14 (amended, ownership and listing): the predicate "the `Device` field is not
`NULL` if and only if the instance is in the traversal of some device" holds at a
freshly allocated instance (in a memory where every device has a traversal and the
new address was in none), and attach keeps it at every instance.  Detach removes
`x` from the traversal of its device `D` and leaves the `Device` field of `x` at
`D`; when `x` was in no other traversal the predicate then fails at `x`; when `x`
was not the head it is kept at every other instance. -/
theorem ownership_matches_listing :
    (∀ (env : Env) (s : State) (x : Nat), env.AllocateMemoryFor s = x → x ≠ 0 →
      (∀ E e, s.Devices E = some e → ∃ L, IsList s.Instances e.FirstInstance L) →
      ¬ Listed s x →
      ∃ sA, AllocateSoundDeviceInstance env s = .ok (x, sA) ∧
        ¬ HasOwner sA x ∧ ¬ Listed sA x ∧ OwnershipMatchesListing sA x) ∧
    (∀ (env : Env) (fuel : Nat) (s : State) (D x : Nat) (d : SOUND_DEVICE) (L : List Nat),
      D ≠ 0 → x ≠ 0 → s.Instances x = some ⟨0, 0⟩ → s.Devices D = some d →
      KnownDeviceType d.DeviceType →
      (IS_WAVE_DEVICE_TYPE d.DeviceType = true →
        env.InitWaveStreamData x = MMSYSERR_NOERROR) →
      InstanceList s D L → L.length ≤ fuel →
      (∀ y, OwnershipMatchesListing s y) →
      ∃ s1, ListSoundDeviceInstance env fuel s D x = .ok s1 ∧
        OwnedBy s1 x D ∧ InstanceList s1 D (L ++ [x]) ∧
        ∀ y, OwnershipMatchesListing s1 y) ∧
    (∀ (fuel : Nat) (s : State) (x D : Nat) (L : List Nat),
      D ≠ 0 → OwnedBy s x D → InstanceList s D L → x ∈ L → L.length ≤ fuel + 1 →
      ∃ s1, UnlistSoundDeviceInstance fuel s x = .ok s1 ∧
        InstanceList s1 D (detached L x) ∧ x ∉ detached L x ∧
        OwnedBy s1 x D ∧ HasOwner s1 x ∧
        ((∀ E LE, InstanceList s E LE → x ∈ LE → E = D) →
          ¬ Listed s1 x ∧ ¬ OwnershipMatchesListing s1 x) ∧
        (L.head? ≠ some x →
          ∀ y, y ≠ x → OwnershipMatchesListing s y → OwnershipMatchesListing s1 y)) := by
  refine ⟨?_, ?_, ?_⟩
  · intro env s x halloc hx0 hwf hun
    obtain ⟨sA, hrun, _, hno, hnl, hP, _⟩ :=
      AllocateSoundDeviceInstance_fresh env s x halloc hx0 hwf hun
    exact ⟨sA, hrun, hno, hnl, hP⟩
  · intro env fuel s D x d L hD hx0 hix hd hk hw hL hfuel hP
    simp only [InstanceList, hd] at hL
    exact ListSoundDeviceInstance_keeps_ownership env fuel s D x d L hD hx0 hix hd hk hw hL
      hfuel hP
  · intro fuel s x D L hD hown hL hxL hfuel
    obtain ⟨ix, hix, hdev⟩ := OwnedBy_iff.mp hown
    obtain ⟨d, hd, hl⟩ := InstanceList_iff.mp hL
    have hx0 : x ≠ 0 := hl.ne_null x hxL
    obtain ⟨s1, hrun, hlist, hnot, hown1, hhas, hno, hkeep⟩ :=
      UnlistSoundDeviceInstance_keeps_owner fuel s x D ix d L hx0 hix hdev hD hd hl hxL
        (fun _ => hfuel)
    refine ⟨s1, hrun, hlist, hnot, hown1, hhas, hno, ?_⟩
    intro hhead
    apply hkeep
    intro hf
    apply hhead
    cases L with
    | nil => simp at hxL
    | cons a L =>
      obtain ⟨hp, _⟩ := IsList_cons.mp hl
      simp [← hp, hf]

/-- Witness for C14: detaching `2` from `[1, 2, 3]` leaves `[1, 3]`, the `Device`
field of `2` still names the device, and the predicate is kept at the others. -/
theorem ownership_matches_listing_witness :
    ∃ s1, UnlistSoundDeviceInstance 2
        (deviceState WAVE_OUT_DEVICE_TYPE (constTable 0 0) 100 [1, 2, 3]) 2 = .ok s1 ∧
      InstanceList s1 100 (detached [1, 2, 3] 2) ∧ 2 ∉ detached [1, 2, 3] 2 ∧
      OwnedBy s1 2 100 ∧ HasOwner s1 2 ∧
      ((∀ E LE,
          InstanceList (deviceState WAVE_OUT_DEVICE_TYPE (constTable 0 0) 100 [1, 2, 3]) E LE →
          2 ∈ LE → E = 100) →
        ¬ Listed s1 2 ∧ ¬ OwnershipMatchesListing s1 2) ∧
      ([1, 2, 3].head? ≠ some 2 →
        ∀ y, y ≠ 2 →
          OwnershipMatchesListing
            (deviceState WAVE_OUT_DEVICE_TYPE (constTable 0 0) 100 [1, 2, 3]) y →
          OwnershipMatchesListing s1 y) :=
  ownership_matches_listing.2.2 2
    (deviceState WAVE_OUT_DEVICE_TYPE (constTable 0 0) 100 [1, 2, 3]) 2 100 [1, 2, 3]
    (by decide) (by decide) (by decide) (by decide) (by decide)

/-! ## What the routines leave untouched -/

theorem mem_of_mem_detached {L : List Nat} {x z : Nat} (h : z ∈ detached L x) : z ∈ L := by
  unfold detached at h
  split at h
  · simp at h
  · exact List.mem_of_mem_erase h

/-- Attach writes only the new instance and the instances of the list. -/
theorem ListSoundDeviceInstance_frame (env : Env) (fuel : Nat) (s s1 : State) (D x : Nat)
    (d : SOUND_DEVICE) (L : List Nat)
    (hD : D ≠ 0) (hx0 : x ≠ 0) (hix : s.Instances x = some ⟨0, 0⟩)
    (hd : s.Devices D = some d) (hk : KnownDeviceType d.DeviceType)
    (hw : IS_WAVE_DEVICE_TYPE d.DeviceType = true →
      env.InitWaveStreamData x = MMSYSERR_NOERROR)
    (hL : IsList s.Instances d.FirstInstance L) (hxL : x ∉ L) (hfuel : L.length ≤ fuel)
    (hrun : ListSoundDeviceInstance env fuel s D x = .ok s1) :
    ∀ y, y ≠ x → y ∉ L → s1.Instances y = s.Instances y := by
  obtain ⟨hex1, hex2⟩ :=
    ListSoundDeviceInstance_exact env fuel s D x d L hD hx0 hix hd hk hw hL hxL hfuel
  intro y hyx hyL
  by_cases hnil : L = []
  · have hs1 := (hex1 hnil).symm.trans hrun
    injection hs1 with hs1
    subst hs1
    simp [Function.update, hyx]
  · obtain ⟨t, it, htL, _, _, _, _, hrun2⟩ := hex2 hnil
    have hs1 := hrun2.symm.trans hrun
    injection hs1 with hs1
    subst hs1
    have hyt : y ≠ t := fun e => hyL (e ▸ htL)
    simp [Function.update, hyx, hyt]

/-- Detach writes only instances of the list. -/
theorem UnlistSoundDeviceInstance_frame (fuel : Nat) (s s1 : State) (x D : Nat)
    (ix : SOUND_DEVICE_INSTANCE) (d : SOUND_DEVICE) (L : List Nat)
    (hx0 : x ≠ 0) (hix : s.Instances x = some ix) (hown : ix.Device = D) (hD : D ≠ 0)
    (hd : s.Devices D = some d) (hL : IsList s.Instances d.FirstInstance L) (hxL : x ∈ L)
    (hfuel : d.FirstInstance ≠ x → L.length ≤ fuel + 1)
    (hrun : UnlistSoundDeviceInstance fuel s x = .ok s1) :
    ∀ y, y ∉ L → s1.Instances y = s.Instances y := by
  intro y hyL
  by_cases hf : d.FirstInstance = x
  · have hs1 := (UnlistSoundDeviceInstance_head_exact fuel s x D ix d hx0 hix hown hD hd
      hf).symm.trans hrun
    injection hs1 with hs1
    subst hs1
    rfl
  · obtain ⟨pred, ipred, hpm, _, _, _, _, hrun2⟩ :=
      UnlistSoundDeviceInstance_exact fuel s x D ix d L hx0 hix hown hD hd hL hxL hf (hfuel hf)
    have hs1 := hrun2.symm.trans hrun
    injection hs1 with hs1
    subst hs1
    have hyp : y ≠ pred := fun e => hyL (e ▸ hpm)
    simp [Function.update, hyp]

/-- Create, whatever the constructor returns: the traversal of `D` afterwards
holds instances of `L` and possibly `x`, the other devices are as before, and
only `x` and instances of `L` are written. -/
theorem CreateSoundDeviceInstance_frame (env : Env) (fuel : Nat) (s : State)
    (D slot x : Nat) (d : SOUND_DEVICE) (L : List Nat)
    (hD : D ≠ 0) (hslot : slot ≠ 0) (hd : s.Devices D = some d)
    (hL : IsList s.Instances d.FirstInstance L) (hk : KnownDeviceType d.DeviceType)
    (halloc : env.AllocateMemoryFor s = x) (hx0 : x ≠ 0) (hxL : x ∉ L)
    (hw : IS_WAVE_DEVICE_TYPE d.DeviceType = true →
      env.InitWaveStreamData x = MMSYSERR_NOERROR)
    (hfuel : L.length ≤ fuel) :
    ∃ r s1 L1, CreateSoundDeviceInstance env fuel s D slot = .ok (r, s1) ∧
      InstanceList s1 D L1 ∧ (∀ z ∈ L1, z ∈ L ∨ z = x) ∧
      (∀ E, E ≠ D → s1.Devices E = s.Devices E) ∧
      (∀ y, y ≠ x → y ∉ L → s1.Instances y = s.Instances y) := by
  obtain ⟨sA, hsA⟩ : ∃ sA : State, sA =
      ⟨s.Devices, Function.update s.Instances x (some ⟨0, 0⟩),
        s.Trace ++ [.AllocateMemoryFor x]⟩ := ⟨_, rfl⟩
  have hal : AllocateSoundDeviceInstance env s = .ok (x, sA) := by
    rw [hsA]
    exact AllocateSoundDeviceInstance_ok env s x halloc hx0
  have hAi : sA.Instances = Function.update s.Instances x (some ⟨0, 0⟩) := by rw [hsA]
  have hAd : sA.Devices = s.Devices := by rw [hsA]
  have hixA : sA.Instances x = some ⟨0, 0⟩ := by rw [hAi]; simp
  have hdA : sA.Devices D = some d := by rw [hAd]; exact hd
  have hLA : IsList sA.Instances d.FirstInstance L := by
    rw [hAi]
    exact hL.update_of_not_mem _ hxL
  obtain ⟨s2, hlist2, hl2, hx2, ⟨d2, hd2, hfn, _⟩, hother2, _, _⟩ :=
    ListSoundDeviceInstance_spec env fuel sA D x d L hD hx0 hixA hdA hk hw hLA hxL hfuel
  have hfr2 := ListSoundDeviceInstance_frame env fuel sA s2 D x d L hD hx0 hixA hdA hk hw hLA
    hxL hfuel hlist2
  have hfrA : ∀ y, y ≠ x → sA.Instances y = s.Instances y := by
    intro y hyx
    rw [hAi]
    simp [Function.update, hyx]
  by_cases hc : d2.Functions.Constructor x = MMSYSERR_NOERROR
  · have hrun := CreateSoundDeviceInstance_run_ok env fuel s sA s2 D slot x d2 hD hslot hx0 hal
      hlist2 hd2 hc
    refine ⟨_, _, L ++ [x], hrun, hl2, ?_, ?_, ?_⟩
    · intro z hz
      rcases List.mem_append.mp hz with h | h
      · exact Or.inl h
      · exact Or.inr (by simpa using h)
    · intro E hE
      exact (hother2 E hE).trans (by rw [hAd])
    · intro y hyx hyL
      exact (hfr2 y hyx hyL).trans (hfrA y hyx)
  · have hlist3 : IsList (record s2 (.Constructor x)).Instances d2.FirstInstance (L ++ [x]) := by
      simpa [InstanceList, hd2] using hl2
    obtain ⟨s4, hun, hlist4, _, ⟨d4, hd4, _⟩, hother4, _, _⟩ :=
      UnlistSoundDeviceInstance_spec fuel (record s2 (.Constructor x)) x D ⟨0, D⟩ d2 (L ++ [x])
        hx0 hx2 rfl hD hd2 hlist3 (by simp) (fun _ => by simp; omega)
    have hfr4 := UnlistSoundDeviceInstance_frame fuel (record s2 (.Constructor x)) s4 x D
      ⟨0, D⟩ d2 (L ++ [x]) hx0 hx2 rfl hD hd2 hlist3 (by simp) (fun _ => by simp; omega) hun
    rw [detached_append_self hxL] at hlist4
    have hrun := CreateSoundDeviceInstance_run_fail env fuel s sA s2 s4 D slot x d2 hD hslot hx0
      hal hlist2 hd2 hc hun
    refine ⟨_, _, L, hrun, ?_, fun z hz => Or.inl hz, ?_, ?_⟩
    · simp only [InstanceList, FreeSoundDeviceInstance, record, hd4] at hlist4 ⊢
      exact hlist4.update_of_not_mem none hxL
    · intro E hE
      exact ((hother4 E hE).trans (hother2 E hE)).trans (by rw [hAd])
    · intro y hyx hyL
      have h4 : s4.Instances y = s2.Instances y := hfr4 y (by simp [hyx, hyL])
      have h5 : (FreeSoundDeviceInstance s4 x).Instances y = s4.Instances y := by
        simp [FreeSoundDeviceInstance, record, Function.update, hyx]
      exact h5.trans (h4.trans ((hfr2 y hyx hyL).trans (hfrA y hyx)))

/-- Destroy of a listed instance: the traversal of `D` afterwards is
`detached L x`, the other devices are as before, and only instances of `L` are
written. -/
theorem DestroySoundDeviceInstance_frame (fuel : Nat) (s : State) (x D : Nat)
    (ix : SOUND_DEVICE_INSTANCE) (d : SOUND_DEVICE) (L : List Nat)
    (hx0 : x ≠ 0) (hix : s.Instances x = some ix) (hown : ix.Device = D) (hD : D ≠ 0)
    (hd : s.Devices D = some d) (hL : IsList s.Instances d.FirstInstance L) (hxL : x ∈ L)
    (hfuel : d.FirstInstance ≠ x → L.length ≤ fuel + 1) :
    ∃ s1 d1, DestroySoundDeviceInstance fuel s x = .ok (MMSYSERR_NOERROR, s1) ∧
      InstanceList s1 D (detached L x) ∧
      s1.Devices D = some d1 ∧
      d1.FirstInstance = (if d.FirstInstance = x then 0 else d.FirstInstance) ∧
      (∀ E, E ≠ D → s1.Devices E = s.Devices E) ∧
      (∀ y, y ∉ L → s1.Instances y = s.Instances y) := by
  obtain ⟨s2, hun, hlist, _, ⟨d1, hd1, _, _, hfirst⟩, hother, _, _⟩ :=
    UnlistSoundDeviceInstance_spec fuel (record s (.Destructor x)) x D ix d L hx0 hix hown hD
      hd hL hxL hfuel
  have hfr := UnlistSoundDeviceInstance_frame fuel (record s (.Destructor x)) s2 x D ix d L
    hx0 hix hown hD hd hL hxL hfuel hun
  have hrun := DestroySoundDeviceInstance_run fuel s s2 x ix d hx0 hix (hown ▸ hD)
    (hown ▸ hd) hun
  refine ⟨_, d1, hrun, ?_, hd1, hfirst, hother, ?_⟩
  · have hnot : x ∉ detached L x := not_mem_detached hL.nodup
    simp only [InstanceList, FreeSoundDeviceInstance, record, hd1] at hlist ⊢
    exact hlist.update_of_not_mem none hnot
  · intro y hyL
    have hyx : y ≠ x := fun e => hyL (e ▸ hxL)
    have := hfr y hyL
    simpa [FreeSoundDeviceInstance, record, Function.update, hyx] using this

/-! ## No duplicates, one list -/

/-- A step that rewrites the traversal of `D` into instances of the old one or
instances that were in no traversal, and that leaves the other devices and the
instances of their traversals alone, keeps `NoDuplicates`. -/
theorem NoDuplicates.of_frame {s s1 : State} {D : Nat} {L L1 : List Nat}
    (hQ : NoDuplicates s) (hL : InstanceList s D L) (hL1 : InstanceList s1 D L1)
    (hsub : ∀ z ∈ L1, z ∈ L ∨ ¬ Listed s z)
    (hdev : ∀ E, E ≠ D → s1.Devices E = s.Devices E)
    (hframe : ∀ E LE, E ≠ D → InstanceList s E LE →
      ∀ y ∈ LE, s1.Instances y = s.Instances y) :
    NoDuplicates s1 := by
  have hkeep : ∀ E, E ≠ D → ∀ e, s1.Devices E = some e →
      ∃ LE, InstanceList s E LE ∧ IsList s1.Instances e.FirstInstance LE ∧ LE.Nodup := by
    intro E hE e he
    have he2 : s.Devices E = some e := by rw [← hdev E hE]; exact he
    obtain ⟨LE, hLE, hnd⟩ := hQ.1 E e he2
    have hil : InstanceList s E LE := InstanceList_iff.mpr ⟨e, he2, hLE⟩
    exact ⟨LE, hil, hLE.congr (hframe E LE hE hil), hnd⟩
  have hback : ∀ E, E ≠ D → ∀ L2, InstanceList s1 E L2 → InstanceList s E L2 := by
    intro E hE L2 hl
    obtain ⟨e, he, hl2⟩ := InstanceList_iff.mp hl
    obtain ⟨LE, hil, hl3, _⟩ := hkeep E hE e he
    have : L2 = LE := hl2.unique hl3
    subst this
    exact hil
  constructor
  · intro E e he
    by_cases hE : E = D
    · subst hE
      obtain ⟨d1, hd1, hl1⟩ := InstanceList_iff.mp hL1
      have : e = d1 := Option.some.inj (he.symm.trans hd1)
      subst this
      exact ⟨L1, hl1, hl1.nodup⟩
    · obtain ⟨LE, _, hl3, hnd⟩ := hkeep E hE e he
      exact ⟨LE, hl3, hnd⟩
  · intro E1 E2 M1 M2 z h1 h2 hz1 hz2
    by_cases hE1 : E1 = D
    · by_cases hE2 : E2 = D
      · exact hE1.trans hE2.symm
      · subst hE1
        have hM1 : M1 = L1 := InstanceList_unique h1 hL1
        subst hM1
        have h2s := hback E2 hE2 M2 h2
        rcases hsub z hz1 with hz | hz
        · exact hQ.2 E1 E2 L M2 z hL h2s hz hz2
        · exact absurd ⟨E2, M2, h2s, hz2⟩ hz
    · by_cases hE2 : E2 = D
      · subst hE2
        have hM2 : M2 = L1 := InstanceList_unique h2 hL1
        subst hM2
        have h1s := hback E1 hE1 M1 h1
        rcases hsub z hz2 with hz | hz
        · exact hQ.2 E1 E2 M1 L z h1s hL hz1 hz
        · exact absurd ⟨E1, M1, h1s, hz1⟩ hz
      · exact hQ.2 E1 E2 M1 M2 z (hback E1 hE1 M1 h1) (hback E2 hE2 M2 h2) hz1 hz2

/-- C16 (no duplicates, one list): the predicate `NoDuplicates` (every device has
a traversal that reaches `NULL` and visits no instance twice, and no instance is in
the traversals of two devices) is kept by `CreateSoundDeviceInstance` whatever the
constructor returns, given that the allocator hands out an address that is in no
traversal, by `DestroySoundDeviceInstance` on an instance listed in its owning
device, and by `DestroyAllInstancesOfSoundDevice`; each of the three calls
returns. -/
theorem NoDuplicates_preserved :
    (∀ (env : Env) (fuel : Nat) (s : State) (D slot x : Nat) (d : SOUND_DEVICE)
      (L : List Nat), NoDuplicates s → D ≠ 0 → slot ≠ 0 → s.Devices D = some d →
      InstanceList s D L → KnownDeviceType d.DeviceType →
      env.AllocateMemoryFor s = x → x ≠ 0 → ¬ Listed s x →
      (IS_WAVE_DEVICE_TYPE d.DeviceType = true →
        env.InitWaveStreamData x = MMSYSERR_NOERROR) →
      L.length ≤ fuel →
      ∃ r s1, CreateSoundDeviceInstance env fuel s D slot = .ok (r, s1) ∧
        NoDuplicates s1) ∧
    (∀ (fuel : Nat) (s : State) (D x : Nat) (L : List Nat), NoDuplicates s → D ≠ 0 →
      InstanceList s D L → x ∈ L → OwnedBy s x D → L.length ≤ fuel + 1 →
      ∃ s1, DestroySoundDeviceInstance fuel s x = .ok (MMSYSERR_NOERROR, s1) ∧
        NoDuplicates s1) ∧
    (∀ (fuel : Nat) (s : State) (D : Nat) (L : List Nat), NoDuplicates s → D ≠ 0 →
      InstanceList s D L → (∀ a, L.head? = some a → OwnedBy s a D) → 2 ≤ fuel →
      ∃ s1, DestroyAllInstancesOfSoundDevice fuel s D = .ok (MMSYSERR_NOERROR, s1) ∧
        NoDuplicates s1) := by
  refine ⟨?_, ?_, ?_⟩
  · intro env fuel s D slot x d L hQ hD hslot hd hL hk halloc hx0 hun hw hfuel
    have hl : IsList s.Instances d.FirstInstance L := by
      simpa [InstanceList, hd] using hL
    have hxL : x ∉ L := fun hx => hun ⟨D, L, hL, hx⟩
    obtain ⟨r, s1, L1, hrun, hL1, hsub, hdev, hfr⟩ :=
      CreateSoundDeviceInstance_frame env fuel s D slot x d L hD hslot hd hl hk halloc hx0 hxL
        hw hfuel
    refine ⟨r, s1, hrun, NoDuplicates.of_frame hQ hL hL1 ?_ hdev ?_⟩
    · intro z hz
      rcases hsub z hz with h | h
      · exact Or.inl h
      · exact Or.inr (h ▸ hun)
    · intro E LE hE hLE y hy
      have hyx : y ≠ x := fun e => hun ⟨E, LE, hLE, e ▸ hy⟩
      have hyL : y ∉ L := fun h => hE (hQ.2 E D LE L y hLE hL hy h)
      exact hfr y hyx hyL
  · intro fuel s D x L hQ hD hL hxL hown hfuel
    obtain ⟨ix, hix, hdevx⟩ := OwnedBy_iff.mp hown
    obtain ⟨d, hd, hl⟩ := InstanceList_iff.mp hL
    have hx0 : x ≠ 0 := hl.ne_null x hxL
    obtain ⟨s1, d1, hrun, hL1, _, _, hdev, hfr⟩ :=
      DestroySoundDeviceInstance_frame fuel s x D ix d L hx0 hix hdevx hD hd hl hxL
        (fun _ => hfuel)
    refine ⟨s1, hrun, NoDuplicates.of_frame hQ hL hL1
      (fun z hz => Or.inl (mem_of_mem_detached hz)) hdev ?_⟩
    intro E LE hE hLE y hy
    exact hfr y (fun h => hE (hQ.2 E D LE L y hLE hL hy h))
  · intro fuel s D L hQ hD hL hown hfuel
    obtain ⟨n, rfl⟩ : ∃ n, fuel = n + 2 := ⟨fuel - 2, by omega⟩
    obtain ⟨d, hd, hl⟩ := InstanceList_iff.mp hL
    cases L with
    | nil =>
      exact ⟨s, DestroyAllInstancesOfSoundDevice_run_empty (n + 1) s D d hD hd
        (IsList_nil.mp hl), hQ⟩
    | cons a L =>
      obtain ⟨hp, ha, _⟩ := IsList_cons.mp hl
      obtain ⟨ia, hia, hdeva⟩ := OwnedBy_iff.mp (hown a rfl)
      obtain ⟨s1, d1, hrun, hL1, hd1, hfirst, hdev, hfr⟩ :=
        DestroySoundDeviceInstance_frame (n + 2) s a D ia d (a :: L) ha hia hdeva hD hd hl
          (by simp) (fun h => absurd hp h)
      have hf1 : d1.FirstInstance = 0 := by simpa [hp] using hfirst
      have hrun2 := DestroyAllInstancesOfSoundDevice_run_head n s s1 D d d1 hD hd
        (hp ▸ ha) (hp ▸ hrun) hd1 hf1
      refine ⟨s1, hrun2, NoDuplicates.of_frame hQ hL hL1
        (fun z hz => Or.inl (mem_of_mem_detached hz)) hdev ?_⟩
      intro E LE hE hLE y hy
      exact hfr y (fun h => hE (hQ.2 E D LE (a :: L) y hLE hL hy h))

/-- Witness for C16: destroying `2` out of the list `[1, 2, 3]` of the only device
of the memory keeps `NoDuplicates`. -/
theorem NoDuplicates_preserved_witness :
    ∃ s1, DestroySoundDeviceInstance 2
        (deviceState WAVE_OUT_DEVICE_TYPE (constTable 0 0) 100 [1, 2, 3]) 2 =
        .ok (MMSYSERR_NOERROR, s1) ∧
      NoDuplicates s1 := by
  have hQ : NoDuplicates (deviceState WAVE_OUT_DEVICE_TYPE (constTable 0 0) 100 [1, 2, 3]) := by
    constructor
    · intro D d hd
      by_cases hD : D = 100
      · subst hD
        have hd2 : d = ⟨WAVE_OUT_DEVICE_TYPE, 1, constTable 0 0⟩ := by
          have : (deviceState WAVE_OUT_DEVICE_TYPE (constTable 0 0) 100 [1, 2, 3]).Devices 100 =
              some ⟨WAVE_OUT_DEVICE_TYPE, 1, constTable 0 0⟩ := rfl
          exact (Option.some.inj (this.symm.trans hd)).symm
        subst hd2
        exact ⟨[1, 2, 3], by decide, by decide⟩
      · simp [deviceState, hD] at hd
    · intro D E L1 L2 x h1 h2 _ _
      have hD : D = 100 := by
        by_contra hD
        simp [InstanceList, deviceState, hD] at h1
      have hE : E = 100 := by
        by_contra hE
        simp [InstanceList, deviceState, hE] at h2
      exact hD.trans hE.symm
  exact NoDuplicates_preserved.2.1 2
    (deviceState WAVE_OUT_DEVICE_TYPE (constTable 0 0) 100 [1, 2, 3]) 100 2 [1, 2, 3]
    hQ (by decide) (by decide) (by decide) (by decide) (by decide)

end MMEBuddy
